/-
Verification of the NewsRag summary-generation and caching pipeline.

Shallow embedding of:
  src/utils/summarization/cache_manager.py          (CacheManager)
  src/utils/summarization/langchain/forex_summarizer.py
  src/utils/summarization/langchain/enhanced_forex_summarizer.py

Wall-clock times (Python `time.time()` floats) are modelled as rationals,
passed explicitly to every operation that reads the clock.  Python dicts
(insertion-ordered, first-occurrence update) are modelled as association
lists with Python update semantics.
-/
import Mathlib

namespace NewsRag

/-! ### Python dict primitives

Python 3 dicts preserve insertion order; `d[k] = v` updates the value in
place when `k` is present and appends at the end otherwise; `del d[k]`
removes the (unique) entry. -/

def pyDictSet {β : Type} (l : List (String × β)) (k : String) (v : β) :
    List (String × β) :=
  match l with
  | [] => [(k, v)]
  | (k', v') :: t => if k' = k then (k, v) :: t else (k', v') :: pyDictSet t k v

def pyDictErase {β : Type} (l : List (String × β)) (k : String) :
    List (String × β) :=
  match l with
  | [] => []
  | (k', v') :: t => if k' = k then t else (k', v') :: pyDictErase t k

def pyDictFind? {β : Type} (l : List (String × β)) (k : String) : Option β :=
  match l with
  | [] => none
  | (k', v') :: t => if k' = k then some v' else pyDictFind? t k

/-- keys of an association list, in insertion order -/
def keysOf {β : Type} (l : List (String × β)) : List String := l.map Prod.fst

/-- Python `min(keys, key=lambda k: access_times[k])`: first entry with the
smallest second component. -/
def pyMinBySnd (h : String × ℚ) (t : List (String × ℚ)) : String × ℚ :=
  t.foldl (fun b x => if x.2 < b.2 then x else b) h

/-- rational addition, definitionally kernel-reducible (the library `+` on
`ℚ` is irreducible); used inside executable definitions and proved equal to
`+` below -/
def qadd (a b : ℚ) : ℚ := mkRat (a.num * b.den + b.num * a.den) (a.den * b.den)

/-! ### CacheManager  (src/utils/summarization/cache_manager.py) -/

structure CacheManager (α : Type) where
  cache : List (String × α × ℚ)
  access_times : List (String × ℚ)
  max_size : Nat
  default_ttl : ℚ
  hits : Nat
  misses : Nat

namespace CacheManager

variable {α : Type}

/-- `CacheManager.__init__` -/
def init (max_size : Nat) (default_ttl : ℚ) : CacheManager α :=
  ⟨[], [], max_size, default_ttl, 0, 0⟩

/-- `CacheManager.delete` -/
def delete (s : CacheManager α) (key : String) : CacheManager α :=
  { s with cache := pyDictErase s.cache key,
           access_times := pyDictErase s.access_times key }

/-- `CacheManager.get` -/
def get (s : CacheManager α) (now : ℚ) (key : String) :
    Option α × CacheManager α :=
  match pyDictFind? s.cache key with
  | none => (none, { s with misses := s.misses + 1 })
  | some (entry, expiry) =>
    if now > expiry then
      let s' := s.delete key
      (none, { s' with misses := s'.misses + 1 })
    else
      (some entry,
       { s with access_times := pyDictSet s.access_times key now,
                hits := s.hits + 1 })

/-- `CacheManager._evict` -/
def evict (s : CacheManager α) : CacheManager α :=
  match s.access_times with
  | [] => s
  | h :: t => s.delete (pyMinBySnd h t).1

/-- `CacheManager.set` -/
def set (s : CacheManager α) (now : ℚ) (key : String) (value : α)
    (ttl : Option ℚ) : CacheManager α :=
  let s1 := if s.max_size ≤ s.cache.length ∧ key ∉ keysOf s.cache
            then s.evict else s
  let expiry := qadd now (ttl.getD s1.default_ttl)
  { s1 with cache := pyDictSet s1.cache key (value, expiry),
            access_times := pyDictSet s1.access_times key now }

/-- `CacheManager.clear` -/
def clear (s : CacheManager α) : CacheManager α :=
  { s with cache := [], access_times := [] }

end CacheManager

/-- one cache operation, with the wall-clock time at which it runs -/
inductive CacheOp (α : Type) where
  | get (now : ℚ) (key : String)
  | set (now : ℚ) (key : String) (value : α) (ttl : Option ℚ)
  | delete (key : String)
  | clear

def CacheManager.step {α : Type} (s : CacheManager α) : CacheOp α → CacheManager α
  | .get now key => (s.get now key).2
  | .set now key v ttl => s.set now key v ttl
  | .delete key => s.delete key
  | .clear => s.clear

def CacheManager.run {α : Type} (s : CacheManager α) (ops : List (CacheOp α)) :
    CacheManager α :=
  ops.foldl CacheManager.step s

/-- structural well-formedness of a cache state: the cache map and the
access-times map hold exactly the same keys (in the same insertion order),
keys are unique, and the entry count is within the size bound -/
def CacheManager.WF {α : Type} (s : CacheManager α) : Prop :=
  keysOf s.cache = keysOf s.access_times ∧
  (keysOf s.cache).Nodup ∧
  s.cache.length ≤ s.max_size

instance {α : Type} (s : CacheManager α) : Decidable s.WF := by
  unfold CacheManager.WF
  infer_instance

/-- removal of the first occurrence of a key from a key list -/
def eraseFirst (l : List String) (k : String) : List String :=
  match l with
  | [] => []
  | x :: t => if x = k then t else x :: eraseFirst t k

/-- the C5 scenario: `max_size=2`, `set A`, `set B`, `get A` (refreshing A's
access time), then `set C` -/
def lruDemo : CacheManager Nat :=
  ((((CacheManager.init 2 1800).set 0 "A" 10 none).set 1 "B" 20 none).get
      2 "A").2.set 3 "C" 30 none

/-! ### Python string ordering

Python compares strings lexicographically by code point.  The library
`String.le` does not kernel-reduce, so the embedding carries its own
(equivalent) code-point comparison. -/

def strLeb : List Char → List Char → Bool
  | [], _ => true
  | _ :: _, [] => false
  | a :: as, b :: bs =>
    if a < b then true else if b < a then false else strLeb as bs

/-- Python `<=` on strings -/
def strLe (a b : String) : Prop := strLeb a.data b.data = true

instance : DecidableRel strLe := fun a b =>
  inferInstanceAs (Decidable (strLeb a.data b.data = true))

/-- Python `sorted` on a list of strings: a stable ascending sort.
`List.insertionSort` with `strLe` is stable and kernel-executable. -/
def pySortedStrings (l : List String) : List String :=
  List.insertionSort strLe l

/-! ### article records (input data model) -/

structure ArticlePayload where
  publishDatePst : String
  title : String
  source : String
  content : String
deriving DecidableEq

structure Article where
  id : String
  score : ℚ
  payload : ArticlePayload
deriving DecidableEq

/-! ### MD5  (model of Python `hashlib.md5(...).hexdigest()`)

Machine words are naturals reduced mod `2^32` explicitly. -/

def w32 : Nat := 4294967296

def rotl32 (x n : Nat) : Nat := ((x <<< n) ||| (x >>> (32 - n))) % w32

def md5K : List Nat :=
  [0xd76aa478, 0xe8c7b756, 0x242070db, 0xc1bdceee,
   0xf57c0faf, 0x4787c62a, 0xa8304613, 0xfd469501,
   0x698098d8, 0x8b44f7af, 0xffff5bb1, 0x895cd7be,
   0x6b901122, 0xfd987193, 0xa679438e, 0x49b40821,
   0xf61e2562, 0xc040b340, 0x265e5a51, 0xe9b6c7aa,
   0xd62f105d, 0x02441453, 0xd8a1e681, 0xe7d3fbc8,
   0x21e1cde6, 0xc33707d6, 0xf4d50d87, 0x455a14ed,
   0xa9e3e905, 0xfcefa3f8, 0x676f02d9, 0x8d2a4c8a,
   0xfffa3942, 0x8771f681, 0x6d9d6122, 0xfde5380c,
   0xa4beea44, 0x4bdecfa9, 0xf6bb4b60, 0xbebfbc70,
   0x289b7ec6, 0xeaa127fa, 0xd4ef3085, 0x04881d05,
   0xd9d4d039, 0xe6db99e5, 0x1fa27cf8, 0xc4ac5665,
   0xf4292244, 0x432aff97, 0xab9423a7, 0xfc93a039,
   0x655b59c3, 0x8f0ccc92, 0xffeff47d, 0x85845dd1,
   0x6fa87e4f, 0xfe2ce6e0, 0xa3014314, 0x4e0811a1,
   0xf7537e82, 0xbd3af235, 0x2ad7d2bb, 0xeb86d391]

def md5S : List Nat :=
  [7, 12, 17, 22, 7, 12, 17, 22, 7, 12, 17, 22, 7, 12, 17, 22,
   5, 9, 14, 20, 5, 9, 14, 20, 5, 9, 14, 20, 5, 9, 14, 20,
   4, 11, 16, 23, 4, 11, 16, 23, 4, 11, 16, 23, 4, 11, 16, 23,
   6, 10, 15, 21, 6, 10, 15, 21, 6, 10, 15, 21, 6, 10, 15, 21]

/-- 8 little-endian bytes of the 64-bit message bit length -/
def md5LenBytes (bitLen : Nat) : List Nat :=
  (List.range 8).map fun i => (bitLen >>> (8 * i)) % 256

def md5Pad (msg : List Nat) : List Nat :=
  let len := msg.length
  let padLen := (119 - (len % 64)) % 64
  msg ++ [0x80] ++ List.replicate padLen 0 ++ md5LenBytes ((len * 8) % (2 ^ 64))

/-- split a byte list into 64-byte blocks (fuel-bounded structural recursion) -/
def md5BlocksAux : Nat → List Nat → List (List Nat)
  | 0, _ => []
  | _ + 1, [] => []
  | fuel + 1, l => l.take 64 :: md5BlocksAux fuel (l.drop 64)

def md5Blocks (l : List Nat) : List (List Nat) := md5BlocksAux (l.length + 1) l

/-- the 16 little-endian 32-bit words of one 64-byte block -/
def md5Words (block : List Nat) : List Nat :=
  (List.range 16).map fun g =>
    (block.getD (4 * g) 0) + (block.getD (4 * g + 1) 0) * 256 +
      (block.getD (4 * g + 2) 0) * 65536 + (block.getD (4 * g + 3) 0) * 16777216

def md5Mix (i b c d : Nat) : Nat × Nat :=
  if i < 16 then ((b &&& c) ||| ((b ^^^ (w32 - 1)) &&& d), i)
  else if i < 32 then ((d &&& b) ||| ((d ^^^ (w32 - 1)) &&& c), (5 * i + 1) % 16)
  else if i < 48 then (b ^^^ c ^^^ d, (3 * i + 5) % 16)
  else (c ^^^ (b ||| (d ^^^ (w32 - 1))), (7 * i) % 16)

def md5Compress (st : Nat × Nat × Nat × Nat) (block : List Nat) :
    Nat × Nat × Nat × Nat :=
  let m := md5Words block
  let ⟨a0, b0, c0, d0⟩ := st
  let fin := (List.range 64).foldl
    (fun (s : Nat × Nat × Nat × Nat) i =>
      let ⟨a, b, c, d⟩ := s
      let ⟨f, g⟩ := md5Mix i b c d
      let f' := (f + a + md5K.getD i 0 + m.getD g 0) % w32
      (d, (b + rotl32 f' (md5S.getD i 0)) % w32, b, c))
    (a0, b0, c0, d0)
  ((a0 + fin.1) % w32, (b0 + fin.2.1) % w32, (c0 + fin.2.2.1) % w32,
   (d0 + fin.2.2.2) % w32)

def hexChar (n : Nat) : Char :=
  if n < 10 then Char.ofNat (48 + n) else Char.ofNat (87 + n)

def byteToHex (b : Nat) : List Char := [hexChar (b / 16), hexChar (b % 16)]

def word32ToLEBytes (x : Nat) : List Nat :=
  [x % 256, (x >>> 8) % 256, (x >>> 16) % 256, (x >>> 24) % 256]

/-- MD5 digest of a byte string as a lowercase hex string -/
def md5Hex (msg : List Nat) : String :=
  let st := (md5Blocks (md5Pad msg)).foldl md5Compress
    (0x67452301, 0xefcdab89, 0x98badcfe, 0x10325476)
  let bytes := word32ToLEBytes st.1 ++ word32ToLEBytes st.2.1 ++
    word32ToLEBytes st.2.2.1 ++ word32ToLEBytes st.2.2.2
  ⟨bytes.foldr (fun b acc => byteToHex b ++ acc) []⟩

/-- UTF-8 bytes of a string, as naturals -/
def strBytes (s : String) : List Nat := s.toUTF8.toList.map UInt8.toNat

/-- `_get_cache_key` of `LangChainForexSummarizer` (and, identical code,
`NewsSummarizer._get_cache_key`): md5 hex digest of
`"{query}:{'-'.join(sorted(article_ids))}"`. -/
def getCacheKey (articles : List Article) (query : String) : String :=
  let article_ids := pySortedStrings (articles.map (fun a => a.id))
  let hash_input := query ++ ":" ++ String.intercalate "-" article_ids
  md5Hex (strBytes hash_input)

/-! ### IEEE-754 binary64 model

`_format_articles_for_prompt` computes its per-article budget with Python
float arithmetic (`int(max_content_chars * (10 / len(selected)))`).  The
embedding models binary64 round-to-nearest-even exactly, over rationals
(exponent range is unbounded; the values involved are far from
overflow/subnormal territory).  All operations are built from `mkRat` so
they kernel-reduce. -/

def qneg (a : ℚ) : ℚ := mkRat (-a.num) a.den

def qmul (a b : ℚ) : ℚ := mkRat (a.num * b.num) (a.den * b.den)

def qdiv (a b : ℚ) : ℚ :=
  mkRat (if b.num < 0 then -(a.num * b.den) else a.num * b.den)
    (a.den * b.num.natAbs)

def qsub (a b : ℚ) : ℚ := mkRat (a.num * b.den - b.num * a.den) (a.den * b.den)

/-- floor of a rational as an integer (`den` is always positive) -/
def qfloorz (a : ℚ) : ℤ := Int.fdiv a.num a.den

/-- `2^e` as a rational, for an integer exponent -/
def qpow2 (e : ℤ) : ℚ :=
  if 0 ≤ e then mkRat (2 ^ e.toNat) 1 else mkRat 1 (2 ^ (-e).toNat)

/-- kernel-reducible `Nat.log2` (the library one is well-founded recursion,
which the kernel cannot evaluate) -/
def natLog2Aux : Nat → Nat → Nat
  | 0, _ => 0
  | fuel + 1, n => if n ≤ 1 then 0 else natLog2Aux fuel (n / 2) + 1

def natLog2 (n : Nat) : Nat := natLog2Aux n n

/-- `⌊log₂ q⌋` for `q > 0` -/
def floorLog2 (q : ℚ) : ℤ :=
  let e0 : ℤ := (natLog2 q.num.natAbs : ℤ) - (natLog2 q.den : ℤ)
  if q < qpow2 e0 then e0 - 1 else if q < qpow2 (e0 + 1) then e0 else e0 + 1

/-- round a rational to the nearest integer, ties to even -/
def roundHalfEven (x : ℚ) : ℤ :=
  let f := qfloorz x
  let r := qsub x (mkRat f 1)
  if r < mkRat 1 2 then f
  else if mkRat 1 2 < r then f + 1
  else if f % 2 = 0 then f else f + 1

/-- round a positive rational to 53 significant bits (nearest, ties even) -/
def fl64pos (q : ℚ) : ℚ :=
  let e := floorLog2 q - 52
  qmul (mkRat (roundHalfEven (qdiv q (qpow2 e))) 1) (qpow2 e)

/-- the binary64 double nearest to a rational -/
def fl64 (q : ℚ) : ℚ :=
  if q.num < 0 then qneg (fl64pos (qneg q))
  else if q.num = 0 then 0
  else fl64pos q

/-- Python `int(x)` on a float: truncation toward zero -/
def pyTrunc (x : ℚ) : ℤ :=
  if x.num < 0 then -Int.fdiv (-x.num) x.den else Int.fdiv x.num x.den

/-- the per-article content budget of `_format_articles_for_prompt`:
`max(800, int(max_content_chars * (10 / selectedCount)))` evaluated in
Python semantics (true division and multiplication in binary64, `int`
truncation) -/
def dynamicContentSize (max_content_chars : Nat) (selectedCount : Nat) : Nat :=
  max 800 (pyTrunc (fl64 (qmul (fl64 (mkRat max_content_chars 1))
    (fl64 (qdiv (mkRat 10 1) (mkRat selectedCount 1)))))).toNat

/-! ### prompt formatter  (`_format_articles_for_prompt`) -/

/-- Python string slice `s[:n]` (by code points) -/
def pyTake (s : String) (n : Nat) : String := ⟨s.data.take n⟩

/-- Python `sorted(articles, key=lambda x: publishDatePst, reverse=True)`:
stable descending sort by date string -/
def sortByDateDesc (articles : List Article) : List Article :=
  List.insertionSort
    (fun a b => strLe b.payload.publishDatePst a.payload.publishDatePst)
    articles

/-- article batch limiting: keep the first `max_articles` after the date
sort -/
def selectArticles (max_articles : Nat) (articles : List Article) :
    List Article :=
  let sorted_articles := sortByDateDesc articles
  if max_articles < sorted_articles.length then
    sorted_articles.take max_articles
  else sorted_articles

/-- one formatted article block -/
def formatOneArticle (idx : Nat) (dyn : Nat) (a : Article) : String :=
  "ARTICLE " ++ toString idx ++ " [Date: " ++ a.payload.publishDatePst ++
    "]:\n" ++
  "Title: " ++ a.payload.title ++ "\n" ++
  "Source: " ++ a.payload.source ++ "\n" ++
  "Content: " ++ pyTake a.payload.content dyn ++ "...\n\n"

/-- `_format_articles_for_prompt` -/
def formatArticlesForPrompt (max_articles max_content_chars : Nat)
    (articles : List Article) : String :=
  let selected_articles := selectArticles max_articles articles
  let dyn := dynamicContentSize max_content_chars selected_articles.length
  selected_articles.enum.foldl
    (fun acc p => acc ++ formatOneArticle (p.1 + 1) dyn p.2) ""

/-! ### a small backtracking regex engine

`_parse_structured_response` is regex-driven.  The engine below interprets
hand-transcribed ASTs of the exact patterns of the source, with Python `re`
semantics: leftmost match, ordered alternation, greedy/lazy repetition,
lookahead, single-character lookbehind, and Python's `$` (end of string or
just before a trailing newline; `re.MULTILINE` is never used in the
source).  Texts are lists of characters (Python strings are sequences of
code points).  Recursion is fuel-bounded; the fuel passed by the wrappers
is generous for every input actually evaluated. -/

def chDigit (c : Char) : Bool := '0' ≤ c && c ≤ '9'

/-- `\w` (the source texts are ASCII; Python uses the Unicode word class) -/
def chWord (c : Char) : Bool := c.isAlpha || chDigit c || c = '_'

/-- `[\w/]` -/
def chWordSlash (c : Char) : Bool := chWord c || c = '/'

/-- `\s` -/
def chSpace (c : Char) : Bool :=
  c = ' ' || c = '\t' || c = '\n' || c = '\r' || c = '\x0b' || c = '\x0c'

inductive RePat where
  | lit (cs : List Char)
  | cls (p : Char → Bool)
  | dot
  | seq (ps : List RePat)
  | alt (ps : List RePat)
  | opt (p : RePat)
  | star (p : RePat) (greedy : Bool)
  | plus (p : RePat) (greedy : Bool)
  | grp (i : Nat) (p : RePat)
  | look (p : RePat)
  | lookb (p : Char → Bool)
  | bos
  | eos

structure ReFlags where
  ignoreCase : Bool
  dotAll : Bool

/-- (group index, start, stop) records, most recent first -/
def ReGroups : Type := List (Nat × Nat × Nat)

def charEqCI (ignoreCase : Bool) (a b : Char) : Bool :=
  if ignoreCase then a.toLower = b.toLower else a = b

def litMatch (ignoreCase : Bool) (cs : List Char) (s : List Char) (pos : Nat) :
    Option Nat :=
  match cs with
  | [] => some pos
  | c :: rest =>
    match s.get? pos with
    | none => none
    | some c' =>
      if charEqCI ignoreCase c c' then litMatch ignoreCase rest s (pos + 1)
      else none

/-- backtracking interpreter; returns candidate `(end, groups)` pairs in
priority order -/
def reRun (fl : ReFlags) (s : List Char) :
    Nat → RePat → Nat → ReGroups → (Nat → ReGroups → List (Nat × ReGroups)) →
    List (Nat × ReGroups)
  | 0, _, _, _, _ => []
  | fuel + 1, pat, pos, g, k =>
    match pat with
    | .lit cs =>
      match litMatch fl.ignoreCase cs s pos with
      | some pos' => k pos' g
      | none => []
    | .cls p =>
      match s.get? pos with
      | some c => if p c then k (pos + 1) g else []
      | none => []
    | .dot =>
      match s.get? pos with
      | some c => if fl.dotAll || c ≠ '\n' then k (pos + 1) g else []
      | none => []
    | .seq ps =>
      match ps with
      | [] => k pos g
      | p :: rest => reRun fl s fuel p pos g
          (fun pos' g' => reRun fl s fuel (.seq rest) pos' g' k)
    | .alt ps =>
      match ps with
      | [] => []
      | p :: rest =>
        reRun fl s fuel p pos g k ++ reRun fl s fuel (.alt rest) pos g k
    | .opt p => reRun fl s fuel p pos g k ++ k pos g
    | .star p greedy =>
      let go := reRun fl s fuel p pos g (fun pos' g' =>
        if pos' = pos then [] else reRun fl s fuel (.star p greedy) pos' g' k)
      if greedy then go ++ k pos g else k pos g ++ go
    | .plus p greedy =>
      reRun fl s fuel p pos g
        (fun pos' g' => reRun fl s fuel (.star p greedy) pos' g' k)
    | .grp i p => reRun fl s fuel p pos g
        (fun pos' g' => k pos' ((i, pos, pos') :: g'))
    | .look p =>
      match reRun fl s fuel p pos g (fun pos' g' => [(pos', g')]) with
      | [] => []
      | _ :: _ => k pos g
    | .lookb p =>
      match pos, s.get? (pos - 1) with
      | p' + 1, some c => if p c then k (p' + 1) g else []
      | _, _ => []
    | .bos => if pos = 0 then k pos g else []
    | .eos =>
      if pos = s.length ∨ (pos + 1 = s.length ∧ s.get? pos = some '\n')
      then k pos g else []

structure ReMatch where
  start : Nat
  stop : Nat
  groups : ReGroups

/-- generous call-depth bound: the transcribed patterns have at most a few
dozen nodes, and each consumed character costs a bounded number of nested
calls -/
def reFuel (s : List Char) : Nat := 200 * (s.length + 2) + 2000

/-- first match of `pat` starting exactly at `pos` -/
def reMatchAt (fl : ReFlags) (pat : RePat) (s : List Char) (pos : Nat) :
    Option ReMatch :=
  match reRun fl s (reFuel s) pat pos [] (fun e g => [(e, g)]) with
  | [] => none
  | (e, g) :: _ => some ⟨pos, e, g⟩

/-- Python `re.search`: leftmost match -/
def reSearchFrom (fl : ReFlags) (pat : RePat) (s : List Char) (from_ : Nat) :
    Option ReMatch :=
  (List.range (s.length + 1 - from_)).findSome?
    (fun d => reMatchAt fl pat s (from_ + d))

def reSearch (fl : ReFlags) (pat : RePat) (s : List Char) : Option ReMatch :=
  reSearchFrom fl pat s 0

/-- Python `re.finditer`: successive non-overlapping matches (an empty
match advances by one) -/
def reFindIterAux (fl : ReFlags) (pat : RePat) (s : List Char) :
    Nat → Nat → List ReMatch
  | 0, _ => []
  | fuel + 1, pos =>
    if pos > s.length then []
    else
      match reSearchFrom fl pat s pos with
      | none => []
      | some m =>
        m :: reFindIterAux fl pat s fuel
          (if m.stop = m.start then m.stop + 1 else m.stop)

def reFindIter (fl : ReFlags) (pat : RePat) (s : List Char) : List ReMatch :=
  reFindIterAux fl pat s (s.length + 2) 0

def listSlice (s : List Char) (a b : Nat) : List Char := (s.take b).drop a

/-- `m.group(i)`: `none` when the group did not participate -/
def ReMatch.groupStr (m : ReMatch) (s : List Char) (i : Nat) :
    Option (List Char) :=
  (m.groups.find? (fun t => t.1 = i)).map (fun t => listSlice s t.2.1 t.2.2)

def ReMatch.groupD (m : ReMatch) (s : List Char) (i : Nat) : List Char :=
  (m.groupStr s i).getD []

/-- Python `re.split` for patterns without capture groups that never match
empty (true of both patterns the source splits on) -/
def reSplit (fl : ReFlags) (pat : RePat) (s : List Char) : List (List Char) :=
  let ms := reFindIter fl pat s
  let rec build (pos : Nat) (ms : List ReMatch) : List (List Char) :=
    match ms with
    | [] => [s.drop pos |>.take (s.length - pos)]
    | m :: rest => listSlice s pos m.start :: build m.stop rest
  build 0 ms

/-- Python `re.sub(pat, '', s)` -/
def reSubEmpty (fl : ReFlags) (pat : RePat) (s : List Char) : List Char :=
  (reSplit fl pat s).foldr (fun part acc => part ++ acc) []

/-! Python string helpers on `List Char` -/

def pyStrip (s : List Char) : List Char :=
  ((s.dropWhile chSpace).reverse.dropWhile chSpace).reverse

def pyLower (s : List Char) : List Char := s.map Char.toLower

def isSubstring (needle hay : List Char) : Bool :=
  (List.range (hay.length + 1)).any (fun i => needle.isPrefixOf (hay.drop i))

/-- Python `str.split(sep)` for a non-empty separator -/
def pySplitOnAux (sep : List Char) :
    Nat → List Char → List Char → List (List Char)
  | 0, acc, rest => [acc.reverse ++ rest]
  | fuel + 1, acc, rest =>
    if sep.isPrefixOf rest then
      acc.reverse :: pySplitOnAux sep fuel [] (rest.drop sep.length)
    else
      match rest with
      | [] => [acc.reverse]
      | c :: cs => pySplitOnAux sep fuel (c :: acc) cs

def pySplitOn (s sep : List Char) : List (List Char) :=
  pySplitOnAux sep (s.length + 1) [] s

/-! ### the regex patterns of `_parse_structured_response`

Each definition transcribes one pattern literal of
src/utils/summarization/langchain/forex_summarizer.py; the original
pattern is quoted in the comment above it. -/

def rlit (s : String) : RePat := .lit s.data

/-- `\s*` -/
def sp0 : RePat := .star (.cls chSpace) true

/-- `\s+` -/
def sp1 : RePat := .plus (.cls chSpace) true

/-- `\d+` -/
def dig1 : RePat := .plus (.cls chDigit) true

/-- `.*?` -/
def lazyAny : RePat := .star .dot false

/-- `\d+(?:\.\d+)?` -/
def decimalPat : RePat := .seq [dig1, .opt (.seq [rlit ".", dig1])]

/-- `[\w/]+` -/
def wordSlash1 : RePat := .plus (.cls chWordSlash) true

/-- flags `re.DOTALL | re.IGNORECASE` -/
def flDI : ReFlags := ⟨true, true⟩

/-- flags `re.IGNORECASE` -/
def flI : ReFlags := ⟨true, false⟩

/-- flags `re.DOTALL` -/
def flD : ReFlags := ⟨false, true⟩

/-- no flags -/
def flN : ReFlags := ⟨false, false⟩

def execSummaryPatterns : List RePat :=
  [ -- (?:Executive Summary|Summary)(?:\s*\n|\s*:)(.*?)
   --   (?=(?:Currency Pair Rankings|Risk Assessment|\n\n\w))
   .seq [.alt [rlit "Executive Summary", rlit "Summary"],
         .alt [.seq [sp0, rlit "\n"], .seq [sp0, rlit ":"]],
         .grp 1 lazyAny,
         .look (.alt [rlit "Currency Pair Rankings", rlit "Risk Assessment",
                      .seq [rlit "\n\n", .cls chWord]])],
   -- \*\*Executive Summary\*\*(.*?)
   --   (?=\*\*Currency Pair Rankings|\*\*Risk Assessment|$)
   .seq [rlit "**Executive Summary**", .grp 1 lazyAny,
         .look (.alt [rlit "**Currency Pair Rankings",
                      rlit "**Risk Assessment", .eos])],
   -- Executive Summary(.*?)(?=Currency Pair Rankings|Risk Assessment|$)
   .seq [rlit "Executive Summary", .grp 1 lazyAny,
         .look (.alt [rlit "Currency Pair Rankings", rlit "Risk Assessment",
                      .eos])]]

def pairsSectionPatterns : List RePat :=
  [ -- (?:Currency Pair Rankings)(?:\s*\n|\s*:)(.*?)(?=(?:Risk Assessment|\n\n\w))
   .seq [rlit "Currency Pair Rankings",
         .alt [.seq [sp0, rlit "\n"], .seq [sp0, rlit ":"]],
         .grp 1 lazyAny,
         .look (.alt [rlit "Risk Assessment", .seq [rlit "\n\n", .cls chWord]])],
   -- \*\*Currency Pair Rankings\*\*(.*?)(?=\*\*Risk Assessment|$)
   .seq [rlit "**Currency Pair Rankings**", .grp 1 lazyAny,
         .look (.alt [rlit "**Risk Assessment", .eos])],
   -- Currency Pair Rankings(.*?)(?=Risk Assessment|$)
   .seq [rlit "Currency Pair Rankings", .grp 1 lazyAny,
         .look (.alt [rlit "Risk Assessment", .eos])]]

def pairPatterns : List RePat :=
  [ -- \*\*([\w/]+)\*\*\s*\(Rank:\s*(\d+(?:\.\d+)?)/(\d+)\)(.*?)
   --   (?=\*\*[\w/]+\*\*|\*\*Risk|\n\n\*\*|$)
   .seq [rlit "**", .grp 1 wordSlash1, rlit "**", sp0, rlit "(Rank:", sp0,
         .grp 2 decimalPat, rlit "/", .grp 3 dig1, rlit ")", .grp 4 lazyAny,
         .look (.alt [.seq [rlit "**", wordSlash1, rlit "**"], rlit "**Risk",
                      rlit "\n\n**", .eos])],
   -- (?:\*\*)?([\w/]+)(?:\*\*)?\s*\(Rank:\s*(\d+(?:\.\d+)?)/(\d+)\)(.*?)
   --   (?=(?:\*\*)?[\w/]+(?:\*\*)?|Risk Assessment|$)
   .seq [.opt (rlit "**"), .grp 1 wordSlash1, .opt (rlit "**"), sp0,
         rlit "(Rank:", sp0, .grp 2 decimalPat, rlit "/", .grp 3 dig1,
         rlit ")", .grp 4 lazyAny,
         .look (.alt [.seq [.opt (rlit "**"), wordSlash1, .opt (rlit "**")],
                      rlit "Risk Assessment", .eos])],
   -- (?:\*\*)?([\w/]+)(?:\*\*)?\s*\(Rank:?\s*(\d+(?:\.\d+)?)[/]?(\d+)?\)(.*?)
   --   (?=(?:\*\*)?[\w/]+(?:\*\*)?|Risk|$)
   .seq [.opt (rlit "**"), .grp 1 wordSlash1, .opt (rlit "**"), sp0,
         rlit "(Rank", .opt (rlit ":"), sp0, .grp 2 decimalPat,
         .opt (rlit "/"), .opt (.grp 3 dig1), rlit ")", .grp 4 lazyAny,
         .look (.alt [.seq [.opt (rlit "**"), wordSlash1, .opt (rlit "**")],
                      rlit "Risk", .eos])]]

def fundamentalPatterns : List RePat :=
  [ -- Fundamental Outlook:\s*(\d+)%
   .seq [rlit "Fundamental Outlook:", sp0, .grp 1 dig1, rlit "%"],
   -- Fundamental\s*:\s*(\d+)%
   .seq [rlit "Fundamental", sp0, rlit ":", sp0, .grp 1 dig1, rlit "%"],
   -- Fundamental\s*Outlook\s*is\s*(\d+)
   .seq [rlit "Fundamental", sp0, rlit "Outlook", sp0, rlit "is", sp0,
         .grp 1 dig1]]

def sentimentPatterns : List RePat :=
  [ -- Sentiment Outlook:\s*(\d+)%
   .seq [rlit "Sentiment Outlook:", sp0, .grp 1 dig1, rlit "%"],
   -- Sentiment\s*:\s*(\d+)%
   .seq [rlit "Sentiment", sp0, rlit ":", sp0, .grp 1 dig1, rlit "%"],
   -- Sentiment\s*is\s*(\d+)
   .seq [rlit "Sentiment", sp0, rlit "is", sp0, .grp 1 dig1]]

def rationalePatterns : List RePat :=
  [ -- Rationale:\s*(.*?)(?=\n\n|\*|$)
   .seq [rlit "Rationale:", sp0, .grp 1 lazyAny,
         .look (.alt [rlit "\n\n", rlit "*", .eos])],
   -- Rationale\s*is\s*(.*?)(?=\n\n|\*|$)
   .seq [rlit "Rationale", sp0, rlit "is", sp0, .grp 1 lazyAny,
         .look (.alt [rlit "\n\n", rlit "*", .eos])],
   -- (?:Description|Analysis|Explanation):\s*(.*?)(?=\n\n|\*|$)
   .seq [.alt [rlit "Description", rlit "Analysis", rlit "Explanation"],
         rlit ":", sp0, .grp 1 lazyAny,
         .look (.alt [rlit "\n\n", rlit "*", .eos])]]

/-- `(Fundamental|Sentiment)\s*Outlook` (used to drop outlook lines from a
rationale fallback) -/
def outlookLinePat : RePat :=
  .seq [.grp 1 (.alt [rlit "Fundamental", rlit "Sentiment"]), sp0,
        rlit "Outlook"]

def riskSectionPatterns : List RePat :=
  [ -- Risk Assessment:?(.*?)(?=Trade Management Guidelines|$)
   .seq [rlit "Risk Assessment", .opt (rlit ":"), .grp 1 lazyAny,
         .look (.alt [rlit "Trade Management Guidelines", .eos])],
   -- \*\*Risk Assessment(?::\*\*|\*\*:|\*\*)(.*?)(?=\*\*Trade Management|$)
   .seq [rlit "**Risk Assessment",
         .alt [rlit ":**", rlit "**:", rlit "**"], .grp 1 lazyAny,
         .look (.alt [rlit "**Trade Management", .eos])],
   -- Risk Assessment(.*?)(?=Trade Management|$)
   .seq [rlit "Risk Assessment", .grp 1 lazyAny,
         .look (.alt [rlit "Trade Management", .eos])]]

def primaryRiskPatterns : List RePat :=
  [ -- Primary Risk:?\s*(.*?)(?=Correlation Risk|Volatility|$)
   .seq [rlit "Primary Risk", .opt (rlit ":"), sp0, .grp 1 lazyAny,
         .look (.alt [rlit "Correlation Risk", rlit "Volatility", .eos])],
   -- \*\s*Primary Risk:?\s*(.*?)(?=\*|Correlation|Volatility|$)
   .seq [rlit "*", sp0, rlit "Primary Risk", .opt (rlit ":"), sp0,
         .grp 1 lazyAny,
         .look (.alt [rlit "*", rlit "Correlation", rlit "Volatility", .eos])],
   -- (?:Main|Key|Principal) Risk:?\s*(.*?)(?=Correlation|Volatility|$)
   .seq [.alt [rlit "Main", rlit "Key", rlit "Principal"], rlit " Risk",
         .opt (rlit ":"), sp0, .grp 1 lazyAny,
         .look (.alt [rlit "Correlation", rlit "Volatility", .eos])]]

def correlationRiskPatterns : List RePat :=
  [ -- Correlation Risk:?\s*(.*?)(?=Volatility|$)
   .seq [rlit "Correlation Risk", .opt (rlit ":"), sp0, .grp 1 lazyAny,
         .look (.alt [rlit "Volatility", .eos])],
   -- \*\s*Correlation Risk:?\s*(.*?)(?=\*|Volatility|$)
   .seq [rlit "*", sp0, rlit "Correlation Risk", .opt (rlit ":"), sp0,
         .grp 1 lazyAny, .look (.alt [rlit "*", rlit "Volatility", .eos])],
   -- Cross-[Aa]sset Risk:?\s*(.*?)(?=Volatility|$)
   .seq [rlit "Cross-", .cls (fun c => c = 'A' || c = 'a'), rlit "sset Risk",
         .opt (rlit ":"), sp0, .grp 1 lazyAny,
         .look (.alt [rlit "Volatility", .eos])]]

def volatilityPatterns : List RePat :=
  [ -- Volatility Potential:?\s*(.*?)(?=$)
   .seq [rlit "Volatility Potential", .opt (rlit ":"), sp0, .grp 1 lazyAny,
         .look .eos],
   -- \*\s*Volatility Potential:?\s*(.*?)(?=\*|$)
   .seq [rlit "*", sp0, rlit "Volatility Potential", .opt (rlit ":"), sp0,
         .grp 1 lazyAny, .look (.alt [rlit "*", .eos])],
   -- (?:Expected|Anticipated) Volatility:?\s*(.*?)(?=$)
   .seq [.alt [rlit "Expected", rlit "Anticipated"], rlit " Volatility",
         .opt (rlit ":"), sp0, .grp 1 lazyAny, .look .eos]]

def guidelinesPatterns : List RePat :=
  [ -- Trade Management Guidelines:?(.*?)$
   .seq [rlit "Trade Management Guidelines", .opt (rlit ":"), .grp 1 lazyAny,
         .eos],
   -- \*\*Trade Management Guidelines(?::\*\*|\*\*:|\*\*)(.*?)$
   .seq [rlit "**Trade Management Guidelines",
         .alt [rlit ":**", rlit "**:", rlit "**"], .grp 1 lazyAny, .eos],
   -- Trade Management(.*?)$
   .seq [rlit "Trade Management", .grp 1 lazyAny, .eos]]

/-- `\n+` -/
def newlinePlusPat : RePat := .plus (.lit ['\n']) true

/-- `^\s*\*\s*` -/
def bulletPat : RePat := .seq [.bos, sp0, rlit "*", sp0]

/-- `(?<=[.!?])\s+` (sentence splitting) -/
def sentenceSplitPat : RePat :=
  .seq [.lookb (fun c => c = '.' || c = '!' || c = '?'), sp1]

/-! ### summary data model -/

structure CurrencyPairRanking where
  pair : String
  rank : ℚ
  maxRank : Nat
  fundamentalOutlook : ℚ
  sentimentOutlook : ℚ
  rationale : String
  /-- only present after a chunk merge (`_merge_chunk_results` adds the
  `mentions` key); `none` in parser output -/
  mentions : Option Nat
deriving DecidableEq

structure SentimentInfo where
  overall : String
  score : ℚ
deriving DecidableEq

structure RiskAssessment where
  primaryRisk : String
  correlationRisk : String
  volatilityPotential : String
deriving DecidableEq

/-- the dictionary `_parse_structured_response` builds -/
structure ParsedSummary where
  summary : String
  keyPoints : List String
  currencyPairRankings : List CurrencyPairRanking
  riskAssessment : RiskAssessment
  tradeManagementGuidelines : List String
  sentiment : SentimentInfo
  impactLevel : String
deriving DecidableEq

/-! ### the parser  (`LangChainForexSummarizer._parse_structured_response`) -/

def parseNatDigits (s : List Char) : Nat :=
  s.foldl (fun n c => n * 10 + (c.toNat - 48)) 0

/-- exact rational value of a `\d+(?:\.\d+)?` decimal literal -/
def decimalValue (s : List Char) : ℚ :=
  match pySplitOn s ['.'] with
  | [ip, fp] =>
    mkRat (parseNatDigits ip * 10 ^ fp.length + parseNatDigits fp)
      (10 ^ fp.length)
  | _ => mkRat (parseNatDigits s) 1

/-- Python `float(s)` on such a literal: the nearest binary64 -/
def pyFloatOfDecimal (s : List Char) : ℚ := fl64 (decimalValue s)

/-- `for pattern in patterns: m = re.search(...); if m: ...; break` -/
def firstSearch (fl : ReFlags) (pats : List RePat) (s : List Char) :
    Option ReMatch :=
  pats.findSome? (fun p => reSearch fl p s)

def pyJoin (sep : List Char) (parts : List (List Char)) : List Char :=
  match parts with
  | [] => []
  | p :: rest => rest.foldl (fun acc q => acc ++ sep ++ q) p

/-- summary section extraction (first matching pattern, group 1 stripped) -/
def extractSummary0 (text : List Char) : List Char :=
  match firstSearch flDI execSummaryPatterns text with
  | some m => pyStrip (m.groupD text 1)
  | none => []

/-- summary with the first-paragraph fallback -/
def extractSummary (text : List Char) : List Char :=
  let s0 := extractSummary0 text
  if s0 = [] ∧ text ≠ [] then
    pyStrip ((pySplitOn text ['\n', '\n']).headD [])
  else s0

def extractPairsSection (text : List Char) : List Char :=
  match firstSearch flDI pairsSectionPatterns text with
  | some m => m.groupD text 1
  | none => []

/-- `for pattern in pair_patterns: matches = list(finditer); if matches:
break` -/
def pairMatchesOf : List RePat → List Char → List ReMatch
  | [], _ => []
  | p :: rest, sec =>
    match reFindIter flD p sec with
    | [] => pairMatchesOf rest sec
    | ms => ms

def outlookOf (pats : List RePat) (content : List Char) : ℚ :=
  match firstSearch flI pats content with
  | some m => mkRat (parseNatDigits (m.groupD content 1)) 1
  | none => 50

def rationaleOf (content : List Char) : List Char :=
  match firstSearch flDI rationalePatterns content with
  | some m => pyStrip (m.groupD content 1)
  | none => []

def pairOfMatch (sec : List Char) (m : ReMatch) : CurrencyPairRanking :=
  let pair_name := m.groupD sec 1
  let rank := pyFloatOfDecimal (m.groupD sec 2)
  let max_rank := match m.groupStr sec 3 with
    | some ds => if ds = [] then 10 else parseNatDigits ds
    | none => 10
  let pair_content := m.groupD sec 4
  let fundamental := outlookOf fundamentalPatterns pair_content
  let sentiment := outlookOf sentimentPatterns pair_content
  let rationale0 := rationaleOf pair_content
  let rationale1 :=
    if rationale0 = [] ∧ pair_content ≠ [] then
      let content_lines := (pySplitOn pair_content ['\n']).filterMap
        (fun line =>
          if (reSearch flI outlookLinePat line).isSome then none
          else some (pyStrip line))
      pyStrip (pyJoin [' '] content_lines)
    else rationale0
  let rationale :=
    if rationale1 = [] then "Analysis for ".data ++ pair_name else rationale1
  ⟨⟨pair_name⟩, rank, max_rank, fundamental, sentiment, ⟨rationale⟩, none⟩

/-- fallback vocabulary scanned for literal mentions (order as in the
source) -/
def commonPairsMention : List String :=
  ["EUR/USD", "USD/JPY", "GBP/USD", "AUD/USD", "USD/CHF", "USD/CAD",
   "NZD/USD"]

def mentionEntry (pair : String) : CurrencyPairRanking :=
  ⟨pair, 5, 10, 50, 50,
   "Mentioned in analysis. See formatted text for details.", none⟩

/-- mention-scan fallback: append an entry per vocabulary pair found in the
text (also without the slash), stopping once three entries exist -/
def addMentionPairs (text : List Char) :
    List String → List CurrencyPairRanking → List CurrencyPairRanking
  | [], acc => acc
  | p :: rest, acc =>
    if isSubstring p.data text ||
        isSubstring (p.data.filter (fun c => c ≠ '/')) text then
      let acc' := acc ++ [mentionEntry p]
      if 3 ≤ acc'.length then acc' else addMentionPairs text rest acc'
    else addMentionPairs text rest acc

def extractRiskSection (text : List Char) : List Char :=
  match firstSearch flDI riskSectionPatterns text with
  | some m => pyStrip (m.groupD text 1)
  | none => []

def riskFieldOf (pats : List RePat) (sec : List Char) : List Char :=
  match firstSearch flDI pats sec with
  | some m => pyStrip (m.groupD sec 1)
  | none => []

def extractGuidelinesText (text : List Char) : List Char :=
  match firstSearch flDI guidelinesPatterns text with
  | some m => pyStrip (m.groupD text 1)
  | none => []

def guidelinesOf (gtext : List Char) : List (List Char) :=
  (reSplit flN newlinePlusPat gtext).filterMap (fun line =>
    let line' := pyStrip (reSubEmpty flN bulletPat line)
    if line' = [] then none else some line')

def bullishWords : List String := ["bullish", "positive", "uptrend", "gains"]

def bearishWords : List String :=
  ["bearish", "negative", "downtrend", "losses"]

/-- sentiment derivation (the `# Determine overall sentiment` block):
average of the pairs' sentiment outlooks (Python integer floor division)
when pairs exist, lexical cues in the summary otherwise -/
def deriveSentiment (pairs : List CurrencyPairRanking)
    (summary : List Char) : SentimentInfo :=
  if pairs ≠ [] then
    let total := (pairs.map (fun p => p.sentimentOutlook)).foldl qadd 0
    let score : ℚ := mkRat (qfloorz (qdiv total (mkRat pairs.length 1))) 1
    if 70 ≤ score then ⟨"bullish", score⟩
    else if score ≤ 30 then ⟨"bearish", score⟩
    else ⟨"neutral", score⟩
  else
    if summary ≠ [] then
      let sl := pyLower summary
      if bullishWords.any (fun w => isSubstring w.data sl) then
        ⟨"bullish", 75⟩
      else if bearishWords.any (fun w => isSubstring w.data sl) then
        ⟨"bearish", 25⟩
      else ⟨"neutral", 50⟩
    else ⟨"neutral", 50⟩

/-- impact level (the `# Determine impact level` block) -/
def deriveImpactLevel (summary : List Char) (score : ℚ) : String :=
  if isSubstring "high".data (pyLower summary) ∨ 80 ≤ score ∨ score ≤ 20 then
    "HIGH"
  else if isSubstring "low".data (pyLower summary) ∨
      (40 ≤ score ∧ score ≤ 60) then "LOW"
  else "MEDIUM"

/-- key points: sentences of the summary longer than 10 characters once
stripped, first three -/
def keyPointsOf (summary : List Char) : List (List Char) :=
  ((reSplit flN sentenceSplitPat summary).filterMap (fun s =>
    let st := pyStrip s
    if 10 < st.length then some st else none)).take 3

def defaultPairEntry : CurrencyPairRanking :=
  ⟨"EUR/USD", 5, 10, 50, 50,
   "Default entry. See formatted text for full analysis.", none⟩

def ifEmptyStr (s : String) (d : String) : String := if s = "" then d else s

/-- `_ensure_complete_result` -/
def ensureCompleteResult (r : ParsedSummary) (original_text : List Char) :
    ParsedSummary :=
  let summary :=
    if r.summary = "" ∧ original_text ≠ [] then
      if isSubstring ['\n', '\n'] original_text then
        (⟨(pySplitOn original_text ['\n', '\n']).headD []⟩ : String)
      else ⟨original_text.take 500⟩
    else r.summary
  let keyPoints :=
    if r.keyPoints = [] then ["Market analysis based on latest financial news"]
    else r.keyPoints
  let pairs :=
    if r.currencyPairRankings = [] then [defaultPairEntry]
    else r.currencyPairRankings
  let risk : RiskAssessment :=
    ⟨ifEmptyStr r.riskAssessment.primaryRisk
        "See formatted text for detailed risk assessment",
      ifEmptyStr r.riskAssessment.correlationRisk
        "See formatted text for correlation risks",
      ifEmptyStr r.riskAssessment.volatilityPotential
        "See formatted text for volatility assessment"⟩
  let guide :=
    if r.tradeManagementGuidelines = [] then
      ["See formatted text for detailed trading guidelines"]
    else r.tradeManagementGuidelines
  { r with summary := summary, keyPoints := keyPoints,
           currencyPairRankings := pairs, riskAssessment := risk,
           tradeManagementGuidelines := guide }

/-- body of `_parse_structured_response` before the final
`_ensure_complete_result` call -/
def parseCore (textS : String) : ParsedSummary :=
  let text := textS.data
  let summary := extractSummary text
  let pairs_section := extractPairsSection text
  let pairs0 : List CurrencyPairRanking :=
    if pairs_section ≠ [] then
      (pairMatchesOf pairPatterns pairs_section).map (pairOfMatch pairs_section)
    else []
  let pairs1 :=
    if pairs0 = [] then addMentionPairs text commonPairsMention [] else pairs0
  let risk_section := extractRiskSection text
  let risk : RiskAssessment :=
    if risk_section ≠ [] then
      ⟨⟨riskFieldOf primaryRiskPatterns risk_section⟩,
       ⟨riskFieldOf correlationRiskPatterns risk_section⟩,
       ⟨riskFieldOf volatilityPatterns risk_section⟩⟩
    else ⟨"", "", ""⟩
  let guidelines_text := extractGuidelinesText text
  let guidelines : List String :=
    if guidelines_text ≠ [] then
      (guidelinesOf guidelines_text).map (fun l => ⟨l⟩)
    else []
  let sentiment := deriveSentiment pairs1 summary
  let impact := deriveImpactLevel summary sentiment.score
  let keyPoints0 : List String :=
    if summary ≠ [] then (keyPointsOf summary).map (fun l => ⟨l⟩) else []
  let keyPoints :=
    if keyPoints0 = [] then ["Market analysis based on latest financial news"]
    else keyPoints0
  ⟨⟨summary⟩, keyPoints, pairs1, risk, guidelines, sentiment, impact⟩

/-- `_parse_structured_response`: the extraction pipeline followed by the
mandatory `_ensure_complete_result` normalisation.  The embedding is a
total function, so the enclosing `try/except` of the source (whose handler
would return `_create_fallback_result`) is never taken. -/
def parseStructuredResponse (textS : String) : ParsedSummary :=
  ensureCompleteResult (parseCore textS) textS.data

/-- `_create_fallback_result` (the except-branch of the source; unreachable
in the embedding but part of the parser's code) -/
def createFallbackResult (textS : String) : ParsedSummary :=
  let text := textS.data
  let first_paragraph :=
    if isSubstring ['\n', '\n'] text then
      (pySplitOn text ['\n', '\n']).headD []
    else text.take 500
  let rec scan : List String → List CurrencyPairRanking →
      List CurrencyPairRanking
    | [], acc => acc
    | p :: rest, acc =>
      if isSubstring p.data text then
        let acc' := acc ++
          [⟨p, 5, 10, 50, 50, "See formatted text for detailed analysis",
            none⟩]
        if 3 ≤ acc'.length then acc' else scan rest acc'
      else scan rest acc
  let currency_pairs := scan commonPairsMention []
  let currency_pairs :=
    if currency_pairs = [] then [defaultPairEntry] else currency_pairs
  ⟨⟨first_paragraph⟩,
   ["Complete analysis available in formatted text",
    "See structured output for detailed currency pair information",
    "Market analysis based on latest financial news"],
   currency_pairs,
   ⟨"See formatted text for detailed risk assessment",
    "See formatted text for correlation risks",
    "See formatted text for volatility assessment"⟩,
   ["See formatted text for detailed trading guidelines"],
   ⟨"neutral", 50⟩, "MEDIUM"⟩

/-! ### the full summary record and the two summarizers

`LangChainForexSummarizer.generate_summary` (the single-pass pipeline) and
`EnhancedForexSummarizer.generate_summary` (the chunk coordinator).  The
LLM chain is the external collaborator: a function from the query and the
formatted articles to either a completion text or an error message.
`generate_summary` is modelled as a function of the cache state and the
current time, returning the outcome, the new cache state, and the number
of LLM invocations made during the call. -/

structure ProcessingDetails where
  chunksProcessed : Nat
  totalChunks : Nat
  totalArticles : Nat
  chunkErrorCount : ℤ
deriving DecidableEq

structure SummaryResult where
  summary : String
  keyPoints : List String
  currencyPairRankings : List CurrencyPairRanking
  riskAssessment : RiskAssessment
  tradeManagementGuidelines : List String
  sentiment : SentimentInfo
  impactLevel : String
  timestamp : ℚ
  formatted_text : String
  articleCount : Nat
  /-- set only by `_merge_chunk_results` -/
  query : Option String
  /-- set only on per-chunk results of the chunked path -/
  chunk_index : Option Nat
  chunk_count : Option Nat
  /-- set only by `_merge_chunk_results` -/
  processingDetails : Option ProcessingDetails
deriving DecidableEq

/-- the LLM collaborator: query and formatted articles to completion text
or error -/
def ChainModel : Type := String → String → Except String String

structure SummarizerConfig where
  maxSummaryArticles : Nat
  maxArticleContentChars : Nat
  maxChunkSize : Nat
  cacheSize : Nat
  cacheTtl : ℚ

/-- defaults of the `os.getenv` calls -/
def defaultConfig : SummarizerConfig := ⟨100, 1500, 50, 100, 1800⟩

/-- Python `str.replace` (left-to-right, non-overlapping) -/
def pyReplaceAux (pat repl : List Char) : Nat → List Char → List Char
  | 0, s => s
  | fuel + 1, s =>
    if pat.isPrefixOf s then repl ++ pyReplaceAux pat repl fuel (s.drop pat.length)
    else
      match s with
      | [] => []
      | c :: cs => c :: pyReplaceAux pat repl fuel cs

def pyReplace (s pat repl : List Char) : List Char :=
  pyReplaceAux pat repl (s.length + 1) s

/-- the 21-pair vocabulary of `_preprocess_articles_for_currency_pairs` -/
def commonPairs21 : List String :=
  ["EUR/USD", "USD/JPY", "GBP/USD", "USD/CHF", "AUD/USD", "USD/CAD",
   "NZD/USD", "EUR/GBP", "EUR/JPY", "GBP/JPY", "EUR/CHF", "EUR/AUD",
   "EUR/CAD", "AUD/JPY", "EUR/NZD", "USD/INR", "USD/CNY", "USD/HKD",
   "USD/SGD", "USD/TRY", "USD/ZAR"]

/-- `_preprocess_articles_for_currency_pairs`: wrap each vocabulary pair
occurring in the content in a `[CURRENCY_PAIR: ...]` marker -/
def preprocessArticles (articles : List Article) : List Article :=
  articles.map (fun a =>
    { a with payload :=
      { a.payload with content :=
        ⟨commonPairs21.foldl (fun c p =>
            pyReplace c p.data ("[CURRENCY_PAIR: " ++ p ++ "]").data)
          a.payload.content.data⟩ } })

/-- the early return of `LangChainForexSummarizer.generate_summary` for an
empty article list (keys absent from the Python dict are modelled by the
neutral defaults) -/
def parentEmptyResult (now : ℚ) : SummaryResult :=
  ⟨"No news articles available to summarize.", [], [], ⟨"", "", ""⟩, [],
   ⟨"neutral", 50⟩, "LOW", now, "", 0, none, none, none, none⟩

/-- the post-parse completion steps of the parent `generate_summary`
(timestamp/formatted_text/articleCount plus its own non-empty-field
repairs, lines 530-594) -/
def postProcess (parsed : ParsedSummary) (summary_text : String)
    (articleCount : Nat) (now : ℚ) : SummaryResult :=
  let summary :=
    if parsed.summary = "" then
      if summary_text ≠ "" then
        (⟨pyStrip (if isSubstring ['\n', '\n'] summary_text.data then
            (pySplitOn summary_text.data ['\n', '\n']).headD []
          else summary_text.data.take 500)⟩ : String)
      else "Analysis of current forex market conditions."
    else parsed.summary
  let keyPoints :=
    if parsed.keyPoints = [] then
      ["Market analysis based on latest financial news"]
    else parsed.keyPoints
  let pairs0 :=
    if parsed.currencyPairRankings = [] then
      if summary_text ≠ "" then
        match ["EUR/USD", "USD/JPY", "GBP/USD", "USD/CHF", "AUD/USD",
               "USD/CAD", "NZD/USD"].find?
            (fun p => isSubstring p.data summary_text.data) with
        | some p =>
          [⟨p, 5, 10, 50, 50,
            "Mentioned in analysis. See formatted text for details.", none⟩]
        | none => []
      else []
    else parsed.currencyPairRankings
  let pairs := if pairs0 = [] then [defaultPairEntry] else pairs0
  let risk : RiskAssessment :=
    ⟨ifEmptyStr parsed.riskAssessment.primaryRisk
        "See formatted text for details",
      ifEmptyStr parsed.riskAssessment.correlationRisk
        "See formatted text for details",
      ifEmptyStr parsed.riskAssessment.volatilityPotential
        "See formatted text for details"⟩
  let guidelines :=
    if parsed.tradeManagementGuidelines = [] then
      ["See formatted text for detailed trading guidelines"]
    else parsed.tradeManagementGuidelines
  ⟨summary, keyPoints, pairs, risk, guidelines, parsed.sentiment,
   parsed.impactLevel, now, summary_text, articleCount, none, none, none,
   none⟩

/-- the uncached part of the parent `generate_summary` for a non-empty
article list: highlight currency pairs, format the prompt, invoke the
chain, parse.  A chain error is re-raised as
`Error in LangChain execution: ...` and propagates.  Returns the outcome
and the LLM invocation count. -/
def parentCore (cfg : SummarizerConfig) (llm : ChainModel) (now : ℚ)
    (articles : List Article) (query : String) :
    Except String SummaryResult × Nat :=
  let processed := preprocessArticles articles
  let formatted := formatArticlesForPrompt cfg.maxSummaryArticles
    cfg.maxArticleContentChars processed
  match llm query formatted with
  | .error e => (.error ("Error in LangChain execution: " ++ e), 1)
  | .ok summary_text =>
    (.ok (postProcess (parseStructuredResponse summary_text) summary_text
      articles.length now), 1)

/-- `LangChainForexSummarizer.generate_summary` -/
def parentGenerateSummary (cfg : SummarizerConfig) (llm : ChainModel)
    (st : CacheManager SummaryResult) (now : ℚ) (articles : List Article)
    (query : String) (use_cache : Bool) :
    Except String SummaryResult × CacheManager SummaryResult × Nat :=
  if articles = [] then (.ok (parentEmptyResult now), st, 0)
  else if use_cache then
    let key := getCacheKey articles query
    match st.get now key with
    | (some r, st1) => (.ok r, st1, 0)
    | (none, st1) =>
      match parentCore cfg llm now articles query with
      | (.ok r, n) => (.ok r, st1.set now key r none, n)
      | (.error e, n) => (.error e, st1, n)
  else
    let (o, n) := parentCore cfg llm now articles query
    (o, st, n)

/-- `EnhancedForexSummarizer._empty_summary_result` -/
def emptySummaryResult (now : ℚ) : SummaryResult :=
  ⟨"Unable to generate market analysis due to processing error.",
   ["Error processing financial news"], [],
   ⟨"Unknown", "Unknown", "Unknown"⟩, [], ⟨"neutral", 50⟩, "MEDIUM", now,
   "", 0, none, none, none, none⟩

/-- `EnhancedForexSummarizer._text_similarity`: Jaccard similarity of the
lowercased whitespace-token sets -/
def pySplitWsAux : List Char → List Char → List (List Char)
  | [], acc => if acc = [] then [] else [acc.reverse]
  | c :: rest, acc =>
    if chSpace c then
      if acc = [] then pySplitWsAux rest []
      else acc.reverse :: pySplitWsAux rest []
    else pySplitWsAux rest (c :: acc)

def pySplitWs (s : List Char) : List (List Char) := pySplitWsAux s []

def textSimilarity (t1 t2 : String) : ℚ :=
  if t1 = "" ∨ t2 = "" then 0
  else
    let tokens1 := (pySplitWs (pyLower t1.data)).dedup
    let tokens2 := (pySplitWs (pyLower t2.data)).dedup
    let intersection := (tokens1.filter (fun t => t ∈ tokens2)).length
    let union := tokens1.length + (tokens2.filter (fun t => t ∉ tokens1)).length
    if 0 < union then mkRat intersection union else 0

/-- the binary64 value of the Python literal `0.7` -/
def q07 : ℚ := fl64 (mkRat 7 10)

/-- the binary64 value of the Python literal `0.5` (exact) -/
def q05 : ℚ := fl64 (mkRat 1 2)

/-- Python `max` (first argument on ties) and float average `(a + b) / 2` -/
def qmax (a b : ℚ) : ℚ := if a < b then b else a

def pyAvg (a b : ℚ) : ℚ := fl64 (qdiv (fl64 (qadd a b)) 2)

/-- lexicographic `(rank, mentions)` comparison for the merged-pair sort -/
def rankMentionsLeB (x y : ℚ × Nat) : Bool :=
  if x.1 = y.1 then x.2 ≤ y.2 else x.1 < y.1

/-- `_merge_chunk_results` -/
def mergeChunkResults (chunk_results : List SummaryResult) (query : String)
    (now : ℚ) : SummaryResult :=
  match chunk_results with
  | [] => emptySummaryResult now
  | first :: _ =>
    let all_key_points := chunk_results.foldl
      (fun acc r => acc ++ r.keyPoints) []
    let unique_key_points := all_key_points.foldl (fun uniq point =>
      if uniq.any (fun existing => q07 < textSimilarity point existing) then
        uniq
      else uniq ++ [point]) []
    let all_pairs := chunk_results.foldl (fun acc r =>
      r.currencyPairRankings.foldl (fun acc pair =>
        if pair.pair = "" then acc
        else
          match pyDictFind? acc pair.pair with
          | some existing =>
            pyDictSet acc pair.pair
              { existing with
                  rank := qmax existing.rank pair.rank,
                  fundamentalOutlook :=
                    pyAvg existing.fundamentalOutlook pair.fundamentalOutlook,
                  sentimentOutlook :=
                    pyAvg existing.sentimentOutlook pair.sentimentOutlook,
                  mentions := some (existing.mentions.getD 0 + 1),
                  rationale :=
                    if existing.rationale.length < 500 then
                      existing.rationale ++ " " ++ pair.rationale
                    else existing.rationale }
          | none => pyDictSet acc pair.pair { pair with mentions := some 1 })
        acc) []
    let sorted_pairs := List.insertionSort
      (fun a b =>
        rankMentionsLeB (b.rank, b.mentions.getD 0)
          (a.rank, a.mentions.getD 0) = true)
      (all_pairs.map Prod.snd)
    let sentiment_scores := chunk_results.map (fun r => r.sentiment.score)
    let sentiment :=
      if sentiment_scores ≠ [] then
        let avg := fl64 (qdiv
          (sentiment_scores.foldl (fun acc x => fl64 (qadd acc x)) 0)
          (mkRat sentiment_scores.length 1))
        let category :=
          if 70 ≤ avg then "bullish"
          else if avg ≤ 30 then "bearish" else "neutral"
        (⟨category, avg⟩ : SentimentInfo)
      else first.sentiment
    let pickLongest := fun (texts : List String) =>
      match texts.filter (fun t => t ≠ "") with
      | [] => ""
      | v :: vs => vs.foldl (fun best x =>
          if best.length < x.length then x else best) v
    let combined_risks : RiskAssessment :=
      ⟨pickLongest (chunk_results.map (fun r => r.riskAssessment.primaryRisk)),
       pickLongest (chunk_results.map
         (fun r => r.riskAssessment.correlationRisk)),
       pickLongest (chunk_results.map
         (fun r => r.riskAssessment.volatilityPotential))⟩
    let valid_summaries :=
      (chunk_results.map (fun r => r.summary)).filter (fun s => s ≠ "")
    let combined_summary :=
      match valid_summaries with
      | [] => ""
      | v0 :: rest =>
        rest.foldl (fun comb summ =>
          (pySplitOn summ.data ". ".data).foldl (fun comb sent =>
            if sent ≠ [] ∧
                ¬ ((pySplitOn comb.data ". ".data).any (fun s =>
                  q05 < textSimilarity ⟨sent⟩ ⟨s⟩)) then
              comb ++ " " ++ (⟨sent⟩ : String) ++ "."
            else comb) comb) v0
    let total_articles := chunk_results.foldl
      (fun acc r => acc + r.articleCount) 0
    { first with
        summary := combined_summary,
        keyPoints := unique_key_points.take 5,
        currencyPairRankings := sorted_pairs.take 8,
        riskAssessment := combined_risks,
        sentiment := sentiment,
        articleCount := total_articles,
        timestamp := now,
        query := some query,
        processingDetails := some
          ⟨chunk_results.length,
           first.chunk_count.getD chunk_results.length,
           total_articles,
           (first.chunk_count.getD chunk_results.length : ℤ) -
             chunk_results.length⟩ }

/-- `(publishDatePst, score)` descending stable sort used before
chunking -/
def dateScoreLeB (x y : String × ℚ) : Bool :=
  if x.1 = y.1 then x.2 ≤ y.2 else strLeb x.1.data y.1.data

def sortArticlesForChunking (articles : List Article) : List Article :=
  List.insertionSort
    (fun a b =>
      dateScoreLeB (b.payload.publishDatePst, b.score)
        (a.payload.publishDatePst, a.score) = true)
    articles

/-- `[sorted[i:i+c] for i in range(0, n, c)]` (fuel-bounded) -/
def chunksOfAux {α : Type} : Nat → Nat → List α → List (List α)
  | 0, _, _ => []
  | _ + 1, _, [] => []
  | fuel + 1, c, l => l.take c :: chunksOfAux fuel c (l.drop c)

def chunksOf {α : Type} (c : Nat) (l : List α) : List (List α) :=
  chunksOfAux (l.length + 1) c l

def chunkQuery (query : String) (total i : Nat) : String :=
  query ++ " (part " ++ toString (i + 1) ++ "/" ++ toString total ++ ")"

/-- one step of the chunk loop: run the parent on the chunk (cache
disabled), appending the result with chunk metadata, or counting the
error and continuing -/
def chunkStep (cfg : SummarizerConfig) (llm : ChainModel) (now : ℚ)
    (query : String) (total : Nat)
    (acc : List SummaryResult × Nat × CacheManager SummaryResult × Nat)
    (p : Nat × List Article) :
    List SummaryResult × Nat × CacheManager SummaryResult × Nat :=
  match parentGenerateSummary cfg llm acc.2.2.1 now p.2
      (chunkQuery query total p.1) false with
  | (.ok r, st', n) =>
    (acc.1 ++ [{ r with chunk_index := some p.1, chunk_count := some total }],
     acc.2.1, st', acc.2.2.2 + n)
  | (.error _, st', n) => (acc.1, acc.2.1 + 1, st', acc.2.2.2 + n)

/-- `EnhancedForexSummarizer.generate_summary` -/
def enhancedGenerateSummary (cfg : SummarizerConfig) (llm : ChainModel)
    (st : CacheManager SummaryResult) (now : ℚ) (articles : List Article)
    (query : String) (use_cache : Bool) :
    SummaryResult × CacheManager SummaryResult × Nat :=
  if articles = [] then (emptySummaryResult now, st, 0)
  else
    let key? : Option String :=
      if use_cache then some (getCacheKey articles query) else none
    let hit : Option SummaryResult × CacheManager SummaryResult :=
      match key? with
      | some key => st.get now key
      | none => (none, st)
    match hit with
    | (some r, st1) => (r, st1, 0)
    | (none, st1) =>
      if articles.length ≤ cfg.maxChunkSize then
        match parentGenerateSummary cfg llm st1 now articles query false with
        | (.ok r, st2, n) => (r, st2, n)
        | (.error _, st2, n) => (emptySummaryResult now, st2, n)
      else
        let sorted_articles := sortArticlesForChunking articles
        let chunks := chunksOf cfg.maxChunkSize sorted_articles
        let folded := chunks.enum.foldl
          (chunkStep cfg llm now query chunks.length) ([], 0, st1, 0)
        let chunk_results := folded.1
        let st2 := folded.2.2.1
        let cnt := folded.2.2.2
        if chunk_results ≠ [] then
          let merged := mergeChunkResults chunk_results query now
          let st3 :=
            match key? with
            | some key => st2.set now key merged none
            | none => st2
          (merged, st3, cnt)
        else (emptySummaryResult now, st2, cnt)

/-- per-chunk outcome of the chunked path (cache disabled inside chunks,
so the outcome depends only on the chunk and its annotated query) -/
def chunkOutcome (cfg : SummarizerConfig) (llm : ChainModel) (now : ℚ)
    (query : String) (total : Nat) (p : Nat × List Article) :
    Except String SummaryResult :=
  (parentCore cfg llm now p.2 (chunkQuery query total p.1)).1

/-- the successful chunk results, in chunk order, with chunk metadata -/
def chunkSuccesses (cfg : SummarizerConfig) (llm : ChainModel) (now : ℚ)
    (query : String) (total : Nat) (ps : List (Nat × List Article)) :
    List SummaryResult :=
  ps.filterMap (fun p =>
    match chunkOutcome cfg llm now query total p with
    | .ok r => some { r with chunk_index := some p.1, chunk_count := some total }
    | .error _ => none)

/-- the LLM stub and first/second enhanced calls of the C3 cache
round-trip scenario: identical `(articles, query)` with `use_cache`
enabled, on a fresh cache -/
def c3Llm : ChainModel := fun _ _ => .ok ""

def c3Article : Article := ⟨"a1", 1, ⟨"2025-01-01", "t", "s", "c"⟩⟩

def c3First : SummaryResult × CacheManager SummaryResult × Nat :=
  enhancedGenerateSummary defaultConfig c3Llm (CacheManager.init 100 1800)
    0 [c3Article] "q" true

def c3Second : SummaryResult × CacheManager SummaryResult × Nat :=
  enhancedGenerateSummary defaultConfig c3Llm c3First.2.1 0 [c3Article]
    "q" true

/-- the chunk list of the chunked path -/
def enhChunks (cfg : SummarizerConfig) (articles : List Article) :
    List (List Article) :=
  chunksOf cfg.maxChunkSize (sortArticlesForChunking articles)

/-- the successful chunk results of the chunked path, in chunk order -/
def enhChunkSuccesses (cfg : SummarizerConfig) (llm : ChainModel) (now : ℚ)
    (query : String) (articles : List Article) : List SummaryResult :=
  chunkSuccesses cfg llm now query (enhChunks cfg articles).length
    (enhChunks cfg articles).enum

/-- the number of failing chunks of the chunked path -/
def enhFailedCount (cfg : SummarizerConfig) (llm : ChainModel) (now : ℚ)
    (query : String) (articles : List Article) : Nat :=
  (enhChunks cfg articles).enum.countP (fun p =>
    !(chunkOutcome cfg llm now query (enhChunks cfg articles).length p).isOk)

/-- the C6 witness scenario: chunk size 1, two articles, an LLM failing
exactly on the second chunk's annotated query -/
def c6Cfg : SummarizerConfig := ⟨100, 1500, 1, 100, 1800⟩

def c6Llm : ChainModel := fun q _ =>
  if isSubstring "(part 2/2)".data q.data then .error "chunk failure"
  else .ok ""

def c6Articles : List Article :=
  [⟨"a1", 1, ⟨"2025-01-02", "t1", "s", "c1"⟩⟩,
   ⟨"a2", 1, ⟨"2025-01-01", "t2", "s", "c2"⟩⟩]

/-! ## Theorems

Everything below proves properties of the definitions above;
no definition depends on anything from here on. -/

theorem qadd_eq (a b : ℚ) : qadd a b = a + b := by
  have ha : ((a.den : ℚ)) ≠ 0 := by exact_mod_cast a.den_nz
  have hb : ((b.den : ℚ)) ≠ 0 := by exact_mod_cast b.den_nz
  rw [qadd, Rat.mkRat_eq_div]
  push_cast
  conv_rhs => rw [← Rat.num_div_den a, ← Rat.num_div_den b]
  rw [div_add_div _ _ ha hb]
  ring_nf

/-! ### association-list lemmas -/

@[simp] theorem keysOf_nil {β : Type} : keysOf ([] : List (String × β)) = [] := rfl

@[simp] theorem keysOf_cons {β : Type} (k : String) (v : β) (t : List (String × β)) :
    keysOf ((k, v) :: t) = k :: keysOf t := rfl

theorem keysOf_map_eq {β : Type} (l : List (String × β)) :
    List.map Prod.fst l = keysOf l := rfl

theorem keysOf_pyDictSet_of_mem {β : Type} {l : List (String × β)} {k : String}
    (v : β) (h : k ∈ keysOf l) : keysOf (pyDictSet l k v) = keysOf l := by
  induction l with
  | nil => simp at h
  | cons p t ih =>
    obtain ⟨k', v'⟩ := p
    by_cases hk : k' = k
    · simp [pyDictSet, hk]
    · have hmem : k ∈ keysOf t := by
        rcases (List.mem_cons.mp (by simpa using h)) with h1 | h1
        · exact absurd h1.symm hk
        · exact h1
      simp [pyDictSet, hk, ih hmem]

theorem keysOf_pyDictSet_of_not_mem {β : Type} {l : List (String × β)} {k : String}
    (v : β) (h : k ∉ keysOf l) : keysOf (pyDictSet l k v) = keysOf l ++ [k] := by
  induction l with
  | nil => simp [pyDictSet]
  | cons p t ih =>
    obtain ⟨k', v'⟩ := p
    have hk : k' ≠ k := by
      intro hkk; exact h (by simp [hkk])
    have hmem : k ∉ keysOf t := by
      intro hm; exact h (by simp [hm])
    simp [pyDictSet, hk, ih hmem]

theorem keysOf_pyDictErase {β : Type} (l : List (String × β)) (k : String) :
    keysOf (pyDictErase l k) = eraseFirst (keysOf l) k := by
  induction l with
  | nil => rfl
  | cons p t ih =>
    obtain ⟨k', v'⟩ := p
    by_cases hk : k' = k
    · simp [pyDictErase, hk, eraseFirst, keysOf_map_eq]
    · simp [pyDictErase, hk, eraseFirst, ih, keysOf_map_eq]

theorem eraseFirst_sublist (l : List String) (k : String) :
    (eraseFirst l k).Sublist l := by
  induction l with
  | nil => simp [eraseFirst]
  | cons x t ih =>
    by_cases hk : x = k
    · simp [eraseFirst, hk]
    · simpa [eraseFirst, hk] using List.Sublist.cons₂ x ih

theorem length_eraseFirst_of_mem {l : List String} {k : String} (h : k ∈ l) :
    (eraseFirst l k).length + 1 = l.length := by
  induction l with
  | nil => simp at h
  | cons x t ih =>
    by_cases hk : x = k
    · simp [eraseFirst, hk]
    · have hmem : k ∈ t := by
        rcases List.mem_cons.mp h with h1 | h1
        · exact absurd h1.symm hk
        · exact h1
      simp [eraseFirst, hk, ih hmem]

theorem nodup_eraseFirst {l : List String} (k : String) (h : l.Nodup) :
    (eraseFirst l k).Nodup :=
  (eraseFirst_sublist l k).nodup h

theorem not_mem_eraseFirst_of_not_mem {l : List String} {k k' : String}
    (h : k' ∉ l) : k' ∉ eraseFirst l k :=
  fun hm => h ((eraseFirst_sublist l k).mem hm)

theorem length_eq_length_keysOf {β : Type} (l : List (String × β)) :
    l.length = (keysOf l).length := by
  simp [keysOf]

theorem pyDictFind?_eq_none_of_not_mem {β : Type} {l : List (String × β)}
    {k : String} (h : k ∉ keysOf l) : pyDictFind? l k = none := by
  induction l with
  | nil => rfl
  | cons p t ih =>
    obtain ⟨k', v'⟩ := p
    have hk : k' ≠ k := fun hkk => h (by simp [hkk])
    have hmem : k ∉ keysOf t := fun hm => h (by simp [hm])
    simp [pyDictFind?, hk, ih hmem]

theorem pyMinBySnd_cons (h x : String × ℚ) (t : List (String × ℚ)) :
    pyMinBySnd h (x :: t) = pyMinBySnd (if x.2 < h.2 then x else h) t := rfl

theorem pyMinBySnd_mem (h : String × ℚ) (t : List (String × ℚ)) :
    pyMinBySnd h t ∈ h :: t := by
  induction t generalizing h with
  | nil => simp [pyMinBySnd]
  | cons x xs ih =>
    rw [pyMinBySnd_cons]
    by_cases hx : x.2 < h.2
    · rw [if_pos hx]
      rcases List.mem_cons.mp (ih x) with h1 | h1
      · simp [h1]
      · simp [h1]
    · rw [if_neg hx]
      rcases List.mem_cons.mp (ih h) with h1 | h1
      · simp [h1]
      · simp [h1]

theorem pyDictFind?_some_mem {β : Type} {l : List (String × β)} {k : String}
    {v : β} (h : pyDictFind? l k = some v) : k ∈ keysOf l := by
  induction l with
  | nil => simp [pyDictFind?] at h
  | cons p t ih =>
    obtain ⟨k', v'⟩ := p
    by_cases hk : k' = k
    · simp [hk]
    · rw [pyDictFind?, if_neg hk] at h
      simp [ih h]

theorem length_pyDictErase_le {β : Type} (l : List (String × β)) (k : String) :
    (pyDictErase l k).length ≤ l.length := by
  rw [length_eq_length_keysOf, length_eq_length_keysOf, keysOf_pyDictErase]
  exact (eraseFirst_sublist _ _).length_le

theorem length_pyDictSet_of_mem {β : Type} {l : List (String × β)} {k : String}
    (v : β) (h : k ∈ keysOf l) : (pyDictSet l k v).length = l.length := by
  rw [length_eq_length_keysOf, length_eq_length_keysOf,
    keysOf_pyDictSet_of_mem v h]

theorem length_pyDictSet_of_not_mem {β : Type} {l : List (String × β)} {k : String}
    (v : β) (h : k ∉ keysOf l) : (pyDictSet l k v).length = l.length + 1 := by
  rw [length_eq_length_keysOf, length_eq_length_keysOf,
    keysOf_pyDictSet_of_not_mem v h]
  simp

theorem nodup_append_singleton {l : List String} {k : String}
    (hn : l.Nodup) (hk : k ∉ l) : (l ++ [k]).Nodup := by
  simp [List.nodup_append, hn, hk]

theorem pyMinBySnd_le (h : String × ℚ) (t : List (String × ℚ)) :
    ∀ p ∈ h :: t, (pyMinBySnd h t).2 ≤ p.2 := by
  induction t generalizing h with
  | nil => simp [pyMinBySnd]
  | cons x xs ih =>
    intro p hp
    rw [pyMinBySnd_cons]
    by_cases hx : x.2 < h.2
    · rw [if_pos hx]
      rcases List.mem_cons.mp hp with hph | hp'
      · rw [hph]; exact le_trans (ih x x (by simp)) (le_of_lt hx)
      · exact ih x p hp'
    · rw [if_neg hx]
      rcases List.mem_cons.mp hp with hph | hp'
      · rw [hph]; exact ih h h (by simp)
      · rcases List.mem_cons.mp hp' with hpx | hp''
        · rw [hpx]; exact le_trans (ih h h (by simp)) (not_lt.mp hx)
        · exact ih h p (by simp [hp''])

/-! ### CacheManager invariant preservation -/

namespace CacheManager

variable {α : Type}

theorem WF.delete {s : CacheManager α} (h : s.WF) (key : String) :
    (s.delete key).WF := by
  obtain ⟨ha, hn, hl⟩ := h
  refine ⟨?_, ?_, ?_⟩
  · simp only [CacheManager.delete, keysOf_pyDictErase, ha]
  · simpa only [CacheManager.delete, keysOf_pyDictErase] using
      nodup_eraseFirst key hn
  · exact le_trans (length_pyDictErase_le _ _) hl

theorem WF.evict {s : CacheManager α} (h : s.WF) : s.evict.WF := by
  unfold CacheManager.evict
  cases hat : s.access_times with
  | nil => exact h
  | cons p t => exact h.delete _

theorem WF.get {s : CacheManager α} (h : s.WF) (now : ℚ) (key : String) :
    (s.get now key).2.WF := by
  unfold CacheManager.get
  cases hf : pyDictFind? s.cache key with
  | none => exact h
  | some ve =>
    obtain ⟨v, e⟩ := ve
    by_cases hexp : now > e
    · simp only [hexp, if_pos]
      exact h.delete key
    · simp only [hexp, if_neg, not_false_iff]
      obtain ⟨ha, hn, hl⟩ := h
      have hmem : key ∈ keysOf s.access_times := ha ▸ pyDictFind?_some_mem hf
      exact ⟨by simp [ha, keysOf_pyDictSet_of_mem _ hmem], hn, hl⟩

theorem default_ttl_evict (s : CacheManager α) :
    s.evict.default_ttl = s.default_ttl := by
  unfold CacheManager.evict
  cases s.access_times with
  | nil => rfl
  | cons p t => rfl

theorem max_size_evict (s : CacheManager α) : s.evict.max_size = s.max_size := by
  unfold CacheManager.evict
  cases s.access_times with
  | nil => rfl
  | cons p t => rfl

theorem set_of_cond_false {s : CacheManager α} {now : ℚ} {key : String}
    {v : α} {ttl : Option ℚ}
    (hcond : ¬(s.max_size ≤ s.cache.length ∧ key ∉ keysOf s.cache)) :
    s.set now key v ttl =
      { s with cache := pyDictSet s.cache key (v, qadd now (ttl.getD s.default_ttl)),
               access_times := pyDictSet s.access_times key now } := by
  simp only [CacheManager.set]
  rw [if_neg hcond]

theorem set_of_cond_true {s : CacheManager α} {now : ℚ} {key : String}
    {v : α} {ttl : Option ℚ}
    (hcond : s.max_size ≤ s.cache.length ∧ key ∉ keysOf s.cache) :
    s.set now key v ttl =
      { s.evict with
          cache := pyDictSet s.evict.cache key
            (v, qadd now (ttl.getD s.evict.default_ttl)),
          access_times := pyDictSet s.evict.access_times key now } := by
  simp only [CacheManager.set]
  rw [if_pos hcond]

theorem WF.set {s : CacheManager α} (h : s.WF) (hpos : 0 < s.max_size)
    (now : ℚ) (key : String) (v : α) (ttl : Option ℚ) :
    (s.set now key v ttl).WF := by
  obtain ⟨ha, hn, hl⟩ := h
  by_cases hmem : key ∈ keysOf s.cache
  · -- existing key: no eviction, in-place update on both maps
    have hcond : ¬(s.max_size ≤ s.cache.length ∧ key ∉ keysOf s.cache) := by
      intro hc; exact hc.2 hmem
    have hmem' : key ∈ keysOf s.access_times := ha ▸ hmem
    rw [set_of_cond_false hcond]
    refine ⟨?_, ?_, ?_⟩
    · simp [keysOf_pyDictSet_of_mem _ hmem, keysOf_pyDictSet_of_mem _ hmem', ha]
    · simpa [keysOf_pyDictSet_of_mem _ hmem] using hn
    · simpa [length_pyDictSet_of_mem _ hmem] using hl
  · by_cases hfull : s.max_size ≤ s.cache.length
    · -- new key at capacity: evict the LRU entry, then append
      have hcond : s.max_size ≤ s.cache.length ∧ key ∉ keysOf s.cache :=
        ⟨hfull, hmem⟩
      have hlen : s.cache.length = s.max_size := le_antisymm hl hfull
      have hat_len : s.access_times.length = s.max_size := by
        rw [length_eq_length_keysOf, ← ha, ← length_eq_length_keysOf, hlen]
      cases hat : s.access_times with
      | nil => rw [hat] at hat_len; simp at hat_len; omega
      | cons p t =>
        have hek_mem : (pyMinBySnd p t).1 ∈ keysOf s.access_times := by
          rw [hat]
          exact List.mem_map_of_mem Prod.fst (pyMinBySnd_mem p t)
        have hek_mem_c : (pyMinBySnd p t).1 ∈ keysOf s.cache := ha ▸ hek_mem
        have hkey_er : key ∉ keysOf (s.evict.cache) := by
          simp only [CacheManager.evict, hat, CacheManager.delete,
            keysOf_pyDictErase]
          exact not_mem_eraseFirst_of_not_mem hmem
        have hkeys_ev : keysOf s.evict.cache = keysOf s.evict.access_times := by
          simp only [CacheManager.evict, hat, CacheManager.delete,
            keysOf_pyDictErase, ha]
        have hkey_er' : key ∉ keysOf (s.evict.access_times) :=
          hkeys_ev ▸ hkey_er
        have hnod_ev : (keysOf s.evict.cache).Nodup := by
          simp only [CacheManager.evict, hat, CacheManager.delete,
            keysOf_pyDictErase]
          exact nodup_eraseFirst _ hn
        have hlen_ev : s.evict.cache.length + 1 = s.max_size := by
          simp only [CacheManager.evict, hat, CacheManager.delete]
          rw [length_eq_length_keysOf, keysOf_pyDictErase, ← hlen,
            length_eq_length_keysOf]
          exact length_eraseFirst_of_mem hek_mem_c
        rw [set_of_cond_true hcond]
        refine ⟨?_, ?_, ?_⟩
        · simp [keysOf_pyDictSet_of_not_mem _ hkey_er,
            keysOf_pyDictSet_of_not_mem _ hkey_er', hkeys_ev]
        · simpa [keysOf_pyDictSet_of_not_mem _ hkey_er] using
            nodup_append_singleton hnod_ev hkey_er
        · simp only [length_pyDictSet_of_not_mem _ hkey_er, max_size_evict]
          omega
    · -- new key with free capacity: plain append on both maps
      have hcond : ¬(s.max_size ≤ s.cache.length ∧ key ∉ keysOf s.cache) := by
        intro hc; exact hfull hc.1
      have hmem' : key ∉ keysOf s.access_times := ha ▸ hmem
      rw [set_of_cond_false hcond]
      refine ⟨?_, ?_, ?_⟩
      · simp [keysOf_pyDictSet_of_not_mem _ hmem,
          keysOf_pyDictSet_of_not_mem _ hmem', ha]
      · simpa [keysOf_pyDictSet_of_not_mem _ hmem] using
          nodup_append_singleton hn hmem
      · simp only [length_pyDictSet_of_not_mem _ hmem]
        omega

theorem WF.clear {s : CacheManager α} (_ : s.WF) : s.clear.WF := by
  exact ⟨rfl, List.nodup_nil, by simp [CacheManager.clear]⟩

theorem max_size_step (s : CacheManager α) (op : CacheOp α) :
    (s.step op).max_size = s.max_size := by
  cases op with
  | get now key =>
    simp only [CacheManager.step, CacheManager.get]
    cases pyDictFind? s.cache key with
    | none => rfl
    | some ve =>
      by_cases hexp : now > ve.2
      · simp [hexp, CacheManager.delete]
      · simp [hexp]
  | set now key v ttl =>
    simp only [CacheManager.step, CacheManager.set]
    by_cases hcond : s.max_size ≤ s.cache.length ∧ key ∉ keysOf s.cache
    · simp [hcond, max_size_evict]
    · simp [hcond]
  | delete key => rfl
  | clear => rfl

theorem WF.step {s : CacheManager α} (h : s.WF) (hpos : 0 < s.max_size)
    (op : CacheOp α) : (s.step op).WF := by
  cases op with
  | get now key => exact h.get now key
  | set now key v ttl => exact h.set hpos now key v ttl
  | delete key => exact h.delete key
  | clear => exact h.clear

theorem WF.run {s : CacheManager α} (h : s.WF) (hpos : 0 < s.max_size)
    (ops : List (CacheOp α)) :
    (s.run ops).WF ∧ (s.run ops).max_size = s.max_size := by
  induction ops generalizing s with
  | nil => exact ⟨h, rfl⟩
  | cons op rest ih =>
    have hstep := h.step hpos op
    have hms := max_size_step s op
    have := ih (s := s.step op) hstep (hms ▸ hpos)
    simpa [CacheManager.run, hms] using this

theorem WF.init (max_size : Nat) (ttl : ℚ) :
    (CacheManager.init max_size ttl : CacheManager α).WF :=
  ⟨rfl, List.nodup_nil, by simp [CacheManager.init]⟩

end CacheManager

/-- C5: a `set` with a fresh key on a cache at `max_size` capacity first
evicts an entry whose last-access timestamp is minimal among all entries,
then inserts the new key with expiry `now + ttl`; and in the concrete
scenario `set A; set B; get A; set C` with `max_size = 2`, key B is evicted
while A and C remain present. -/
theorem cacheManager_set_evicts_lru {α : Type} (s : CacheManager α) (now : ℚ)
    (key : String) (v : α) (ttl : Option ℚ)
    (hwf : s.WF) (hfull : s.cache.length = s.max_size) (hpos : 0 < s.max_size)
    (hnew : key ∉ keysOf s.cache) :
    (∃ ek tk, (ek, tk) ∈ s.access_times ∧
       (∀ p ∈ s.access_times, tk ≤ p.2) ∧
       (s.set now key v ttl).cache =
         pyDictSet (pyDictErase s.cache ek) key
           (v, now + ttl.getD s.default_ttl) ∧
       (s.set now key v ttl).access_times =
         pyDictSet (pyDictErase s.access_times ek) key now) ∧
    (pyDictFind? lruDemo.cache "B" = none ∧
     (pyDictFind? lruDemo.cache "A").isSome = true ∧
     (pyDictFind? lruDemo.cache "C").isSome = true) := by
  obtain ⟨ha, hn, hl⟩ := hwf
  constructor
  · have hcond : s.max_size ≤ s.cache.length ∧ key ∉ keysOf s.cache :=
      ⟨le_of_eq hfull.symm, hnew⟩
    have hat_len : s.access_times.length = s.max_size := by
      rw [length_eq_length_keysOf, ← ha, ← length_eq_length_keysOf, hfull]
    cases hat : s.access_times with
    | nil => rw [hat] at hat_len; simp at hat_len; omega
    | cons p t =>
      refine ⟨(pyMinBySnd p t).1, (pyMinBySnd p t).2, ?_, ?_, ?_, ?_⟩
      · simpa using pyMinBySnd_mem p t
      · intro q hq
        exact pyMinBySnd_le p t q hq
      · rw [CacheManager.set_of_cond_true hcond]
        simp [CacheManager.evict, hat, CacheManager.delete, qadd_eq]
      · rw [CacheManager.set_of_cond_true hcond]
        simp [CacheManager.evict, hat, CacheManager.delete]
  · refine ⟨by decide, by decide, by decide⟩

/-- C5 witness: the theorem applied to the concrete pre-state of the
scenario (the cache holding A and B with A more recently accessed),
inserting key C. -/
theorem cacheManager_set_evicts_lru_witness :
    (let s := ((((CacheManager.init 2 1800).set 0 "A" 10 none).set
        1 "B" 20 none).get 2 "A").2
     s.WF ∧ s.cache.length = s.max_size ∧ 0 < s.max_size ∧
       "C" ∉ keysOf s.cache) ∧
    (∃ ek tk,
       (ek, tk) ∈ ((((CacheManager.init (α := Nat) 2 1800).set 0 "A" 10
           none).set 1 "B" 20 none).get 2 "A").2.access_times ∧
       (∀ p ∈ ((((CacheManager.init (α := Nat) 2 1800).set 0 "A" 10
           none).set 1 "B" 20 none).get 2 "A").2.access_times, tk ≤ p.2) ∧
       lruDemo.cache =
         pyDictSet
           (pyDictErase ((((CacheManager.init 2 1800).set 0 "A" 10 none).set
             1 "B" 20 none).get 2 "A").2.cache ek) "C"
           (30, 3 + (Option.none).getD
             ((((CacheManager.init (α := Nat) 2 1800).set 0 "A" 10 none).set
               1 "B" 20 none).get 2 "A").2.default_ttl) ∧
       lruDemo.access_times =
         pyDictSet
           (pyDictErase ((((CacheManager.init (α := Nat) 2 1800).set 0 "A" 10
             none).set 1 "B" 20 none).get 2 "A").2.access_times ek) "C" 3) :=
  ⟨⟨by decide, by decide, by decide, by decide⟩,
   (cacheManager_set_evicts_lru
     ((((CacheManager.init 2 1800).set 0 "A" 10 none).set 1 "B" 20 none).get
       2 "A").2 3 "C" 30 none (by decide) (by decide) (by decide)
     (by decide)).1⟩

/-- C10: starting from a fresh `CacheManager` with `max_size ≥ 1`, after any
finite sequence of `get`/`set`/`delete`/`clear` operations the cache map and
the access-times map hold exactly the same keys, and the number of cached
entries never exceeds `max_size`. -/
theorem cacheManager_run_invariant (α : Type) (ops : List (CacheOp α))
    (max_size : Nat) (ttl : ℚ) (h : 1 ≤ max_size) :
    keysOf ((CacheManager.init max_size ttl : CacheManager α).run ops).cache =
      keysOf ((CacheManager.init max_size ttl :
        CacheManager α).run ops).access_times ∧
    ((CacheManager.init max_size ttl :
      CacheManager α).run ops).cache.length ≤ max_size := by
  have hrun := (CacheManager.WF.init (α := α) max_size ttl).run h ops
  refine ⟨hrun.1.1, ?_⟩
  have h2 := hrun.1.2.2
  rw [hrun.2] at h2
  exact h2

/-- C10 witness: the invariant instantiated on a concrete operation
sequence exercising hit, miss, overwrite, eviction, delete and clear, with
`max_size = 1`. -/
theorem cacheManager_run_invariant_witness :
    1 ≤ 1 ∧
    (keysOf ((CacheManager.init 1 60 : CacheManager Nat).run
        [.set 0 "A" 1 none, .get 1 "A", .set 2 "B" 2 none,
         .delete "A", .clear, .set 5 "C" 3 (some 9)]).cache =
      keysOf ((CacheManager.init 1 60 : CacheManager Nat).run
        [.set 0 "A" 1 none, .get 1 "A", .set 2 "B" 2 none,
         .delete "A", .clear, .set 5 "C" 3 (some 9)]).access_times ∧
    ((CacheManager.init 1 60 : CacheManager Nat).run
        [.set 0 "A" 1 none, .get 1 "A", .set 2 "B" 2 none,
         .delete "A", .clear, .set 5 "C" 3 (some 9)]).cache.length ≤ 1) :=
  ⟨by decide,
   cacheManager_run_invariant Nat
     [.set 0 "A" 1 none, .get 1 "A", .set 2 "B" 2 none,
      .delete "A", .clear, .set 5 "C" 3 (some 9)] 1 60 (by decide)⟩

theorem strLeb_total : ∀ as bs, strLeb as bs = true ∨ strLeb bs as = true := by
  intro as
  induction as with
  | nil => intro bs; left; rfl
  | cons a as ih =>
    intro bs
    cases bs with
    | nil => right; rfl
    | cons b bs =>
      rcases lt_trichotomy a b with hab | hab | hab
      · left; simp [strLeb, hab]
      · subst hab
        rcases ih bs with h | h
        · left; simp [strLeb, lt_irrefl, h]
        · right; simp [strLeb, lt_irrefl, h]
      · right; simp [strLeb, hab]

theorem strLeb_trans : ∀ as bs cs, strLeb as bs = true → strLeb bs cs = true →
    strLeb as cs = true := by
  intro as
  induction as with
  | nil => intro bs cs _ _; rfl
  | cons a as ih =>
    intro bs cs h1 h2
    cases bs with
    | nil => simp [strLeb] at h1
    | cons b bs =>
      cases cs with
      | nil => simp [strLeb] at h2
      | cons c cs =>
        rcases lt_trichotomy a b with hab | hab | hab
        · rcases lt_trichotomy b c with hbc | hbc | hbc
          · simp [strLeb, lt_trans hab hbc]
          · subst hbc; simp [strLeb, hab]
          · rw [strLeb, if_neg (lt_asymm hbc), if_pos hbc] at h2
            exact absurd h2 (by simp)
        · subst hab
          rw [strLeb, if_neg (lt_irrefl a), if_neg (lt_irrefl a)] at h1
          rcases lt_trichotomy a c with hac | hac | hac
          · simp [strLeb, hac]
          · subst hac
            rw [strLeb, if_neg (lt_irrefl a), if_neg (lt_irrefl a)] at h2 ⊢
            exact ih bs cs h1 h2
          · rw [strLeb, if_neg (lt_asymm hac), if_pos hac] at h2
            exact absurd h2 (by simp)
        · rw [strLeb, if_neg (lt_asymm hab), if_pos hab] at h1
          exact absurd h1 (by simp)

theorem strLeb_antisymm : ∀ as bs, strLeb as bs = true → strLeb bs as = true →
    as = bs := by
  intro as
  induction as with
  | nil =>
    intro bs _ h2
    cases bs with
    | nil => rfl
    | cons b bs => simp [strLeb] at h2
  | cons a as ih =>
    intro bs h1 h2
    cases bs with
    | nil => simp [strLeb] at h1
    | cons b bs =>
      rcases lt_trichotomy a b with hab | hab | hab
      · rw [strLeb, if_neg (lt_asymm hab), if_pos hab] at h2
        exact absurd h2 (by simp)
      · subst hab
        rw [strLeb, if_neg (lt_irrefl a), if_neg (lt_irrefl a)] at h1 h2
        rw [ih bs h1 h2]
      · rw [strLeb, if_neg (lt_asymm hab), if_pos hab] at h1
        exact absurd h1 (by simp)

theorem pySortedStrings_perm_eq {l l' : List String} (h : l.Perm l') :
    pySortedStrings l = pySortedStrings l' := by
  haveI : IsTotal String strLe := ⟨fun a b => strLeb_total a.data b.data⟩
  haveI : IsTrans String strLe :=
    ⟨fun _ _ _ h1 h2 => strLeb_trans _ _ _ h1 h2⟩
  haveI : IsAntisymm String strLe :=
    ⟨fun a b h1 h2 => by
      cases a with
      | mk da =>
        cases b with
        | mk db =>
          have := strLeb_antisymm da db h1 h2
          simp [this]⟩
  exact List.eq_of_perm_of_sorted
    ((List.perm_insertionSort strLe l).trans
      (h.trans (List.perm_insertionSort strLe l').symm))
    (List.sorted_insertionSort strLe l)
    (List.sorted_insertionSort strLe l')

/-- C4: the cache key depends only on the query and the multiset of article
ids: permuting the article list leaves `_get_cache_key` unchanged. -/
theorem getCacheKey_perm_invariant (articles articles2 : List Article)
    (query : String) (h : articles.Perm articles2) :
    getCacheKey articles query = getCacheKey articles2 query := by
  unfold getCacheKey
  rw [pySortedStrings_perm_eq (h.map (fun a => a.id))]

/-- C4 witness: two concrete two-article lists that are permutations of each
other yield the same cache key. -/
theorem getCacheKey_perm_invariant_witness :
    ([⟨"id-b", 1, ⟨"2025", "t1", "s1", "c1"⟩⟩,
      ⟨"id-a", 0, ⟨"2024", "t2", "s2", "c2"⟩⟩] : List Article).Perm
      [⟨"id-a", 0, ⟨"2024", "t2", "s2", "c2"⟩⟩,
       ⟨"id-b", 1, ⟨"2025", "t1", "s1", "c1"⟩⟩] ∧
    getCacheKey
      [⟨"id-b", 1, ⟨"2025", "t1", "s1", "c1"⟩⟩,
       ⟨"id-a", 0, ⟨"2024", "t2", "s2", "c2"⟩⟩] "eurusd outlook" =
    getCacheKey
      [⟨"id-a", 0, ⟨"2024", "t2", "s2", "c2"⟩⟩,
       ⟨"id-b", 1, ⟨"2025", "t1", "s1", "c1"⟩⟩] "eurusd outlook" :=
  ⟨List.Perm.swap _ _ _,
   getCacheKey_perm_invariant _ _ "eurusd outlook" (List.Perm.swap _ _ _)⟩

set_option maxRecDepth 8000 in
/-- C9 counterexample: with cap 3159 and 39 selected articles the budget
computed by the formatter (Python binary64 arithmetic) is 809, while the
exact-quotient formula of the claim gives `max(800, 3159*10/39) = 810`. -/
theorem dynamicContentSize_ne_exact_formula :
    (selectArticles 100 (List.replicate 39
      (⟨"i", 1, ⟨"2025", "t", "s", "c"⟩⟩ : Article))).length = 39 ∧
    dynamicContentSize 3159 39 = 809 ∧
    max 800 (3159 * 10 / 39) = 810 := by
  refine ⟨by decide, by decide, by decide⟩

set_option maxRecDepth 100000 in
/-- C9 (amended): the formatter fills each block with the article content
cut to the dynamic budget; the budget is
`max(800, int(maxContentChars * (10 / n)))` in Python float (binary64)
semantics, which for the default cap 1500 and every selected count
1..100 coincides with `max(800, ⌊maxContentChars*10/n⌋)` of the claim. -/
theorem formatArticles_budget (max_articles max_content_chars : Nat)
    (articles : List Article) :
    (formatArticlesForPrompt max_articles max_content_chars articles =
      (selectArticles max_articles articles).enum.foldl
        (fun acc p => acc ++ formatOneArticle (p.1 + 1)
          (dynamicContentSize max_content_chars
            (selectArticles max_articles articles).length) p.2) "") ∧
    (∀ a : Article, ∀ d : Nat,
      (pyTake a.payload.content d).data.length ≤ d) ∧
    (∀ m : Nat, m < 100 →
      dynamicContentSize 1500 (m + 1) = max 800 (1500 * 10 / (m + 1))) := by
  refine ⟨rfl, ?_, ?_⟩
  · intro a d
    simp [pyTake]
  · decide

set_option maxRecDepth 8000 in
/-- C9 witness: the amended theorem instantiated at 39 selected articles
with the default cap. -/
theorem formatArticles_budget_witness :
    (38 : Nat) < 100 ∧
    dynamicContentSize 1500 (38 + 1) = max 800 (1500 * 10 / (38 + 1)) :=
  ⟨by decide, (formatArticles_budget 100 1500 []).2.2 38 (by decide)⟩

/-! ### parser guarantees (C1) -/

theorem strMk_ne_empty {l : List Char} (h : l ≠ []) : (⟨l⟩ : String) ≠ "" := by
  intro he
  exact h (by simpa using congrArg String.data he)

theorem ensureCompleteResult_keyPoints (r : ParsedSummary) (t : List Char) :
    (ensureCompleteResult r t).keyPoints ≠ [] := by
  unfold ensureCompleteResult
  by_cases h : r.keyPoints = [] <;> simp [h]

theorem ensureCompleteResult_pairs (r : ParsedSummary) (t : List Char) :
    (ensureCompleteResult r t).currencyPairRankings ≠ [] := by
  unfold ensureCompleteResult
  by_cases h : r.currencyPairRankings = [] <;> simp [h]

theorem ensureCompleteResult_guidelines (r : ParsedSummary) (t : List Char) :
    (ensureCompleteResult r t).tradeManagementGuidelines ≠ [] := by
  unfold ensureCompleteResult
  by_cases h : r.tradeManagementGuidelines = [] <;> simp [h]

theorem ifEmptyStr_ne (s d : String) (hd : d ≠ "") : ifEmptyStr s d ≠ "" := by
  unfold ifEmptyStr
  by_cases h : s = "" <;> simp [h, hd]

theorem ensureCompleteResult_risk (r : ParsedSummary) (t : List Char) :
    (ensureCompleteResult r t).riskAssessment.primaryRisk ≠ "" ∧
    (ensureCompleteResult r t).riskAssessment.correlationRisk ≠ "" ∧
    (ensureCompleteResult r t).riskAssessment.volatilityPotential ≠ "" := by
  unfold ensureCompleteResult
  exact ⟨ifEmptyStr_ne _ _ (by decide), ifEmptyStr_ne _ _ (by decide),
    ifEmptyStr_ne _ _ (by decide)⟩

theorem ensureCompleteResult_summary (r : ParsedSummary) (t : List Char)
    (h : r.summary ≠ "") : (ensureCompleteResult r t).summary = r.summary := by
  unfold ensureCompleteResult
  simp [h]

theorem extractSummary_ne (t : List Char)
    (h : pyStrip ((pySplitOn t ['\n', '\n']).headD []) ≠ []) :
    extractSummary t ≠ [] := by
  unfold extractSummary
  by_cases ht : t = []
  · subst ht
    exact absurd rfl h
  · by_cases hs : extractSummary0 t = []
    · simpa [hs, ht] using h
    · rw [if_neg (fun hc => hs hc.1)]
      exact hs

theorem parseCore_summary (textS : String) :
    (parseCore textS).summary = ⟨extractSummary textS.data⟩ := rfl

/-- C1 counterexample: on the empty completion text the parser returns an
empty `summary` (no section matches, and both the first-paragraph fallback
and `_ensure_complete_result` are skipped for falsy text), violating the
claimed `summary != ""` invariant. -/
theorem parse_empty_text_summary_empty :
    (parseStructuredResponse "").summary = "" := by decide

/-- C1 (amended): for every completion text the parser returns at least
one key point, at least one currency-pair ranking, three non-empty risk
fields and at least one trade-management guideline, and never raises; the
summary is additionally non-empty whenever the first
blank-line-separated paragraph of the text is non-blank (on the empty
string the summary is the empty string). -/
theorem parse_always_complete (text : String) :
    (parseStructuredResponse text).keyPoints ≠ [] ∧
    (parseStructuredResponse text).currencyPairRankings ≠ [] ∧
    (parseStructuredResponse text).riskAssessment.primaryRisk ≠ "" ∧
    (parseStructuredResponse text).riskAssessment.correlationRisk ≠ "" ∧
    (parseStructuredResponse text).riskAssessment.volatilityPotential ≠ "" ∧
    (parseStructuredResponse text).tradeManagementGuidelines ≠ [] ∧
    (pyStrip ((pySplitOn text.data ['\n', '\n']).headD []) ≠ [] →
      (parseStructuredResponse text).summary ≠ "") := by
  refine ⟨ensureCompleteResult_keyPoints _ _, ensureCompleteResult_pairs _ _,
    (ensureCompleteResult_risk _ _).1, (ensureCompleteResult_risk _ _).2.1,
    (ensureCompleteResult_risk _ _).2.2, ensureCompleteResult_guidelines _ _,
    ?_⟩
  intro h
  have hne : (parseCore text).summary ≠ "" := by
    rw [parseCore_summary]
    exact strMk_ne_empty (extractSummary_ne text.data h)
  rw [parseStructuredResponse, ensureCompleteResult_summary _ _ hne]
  exact hne

/-- C1 witness: the guarantees instantiated on a concrete one-line text
with a non-blank first paragraph. -/
theorem parse_always_complete_witness :
    (parseStructuredResponse "Dollar firm ahead of data.").keyPoints ≠ [] ∧
    (parseStructuredResponse "Dollar firm ahead of data.").summary ≠ "" :=
  ⟨(parse_always_complete "Dollar firm ahead of data.").1,
   (parse_always_complete "Dollar firm ahead of data.").2.2.2.2.2.2
     (by decide)⟩

/-! ### sentiment derivation (C8) -/

theorem qfloorz_eq (a : ℚ) : qfloorz a = ⌊a⌋ := by
  rw [qfloorz, Int.fdiv_eq_ediv a.num (by exact_mod_cast Nat.zero_le a.den),
    Rat.floor_def]

theorem mkRat_one_eq (m : ℤ) : mkRat m 1 = (m : ℚ) := by
  rw [Rat.mkRat_eq_div]
  simp

theorem mul_den_eq_num (b : ℚ) : (b.den : ℚ) * b = (b.num : ℚ) := by
  have hbd : ((b.den : ℚ)) ≠ 0 := by exact_mod_cast b.den_nz
  calc (b.den : ℚ) * b = (b.den : ℚ) * ((b.num : ℚ) / (b.den : ℚ)) := by
        rw [Rat.num_div_den b]
    _ = (b.num : ℚ) := by field_simp

theorem mul_self_den_eq_num (a : ℚ) : a * (a.den : ℚ) = (a.num : ℚ) := by
  have := mul_den_eq_num a
  linarith [this]

theorem qdiv_eq (a b : ℚ) : qdiv a b = a / b := by
  have had : ((a.den : ℚ)) ≠ 0 := by exact_mod_cast a.den_nz
  have hbmul := mul_den_eq_num b
  have hamul := mul_self_den_eq_num a
  rcases lt_trichotomy b.num 0 with hb | hb | hb
  · have hd : ((b.num.natAbs : ℕ) : ℤ) = -b.num :=
      Int.ofNat_natAbs_of_nonpos hb.le
    have hbq : b ≠ 0 := fun hc => by
      rw [hc] at hb
      exact absurd hb (by norm_num)
    have hdq : ((a.den * b.num.natAbs : ℕ) : ℚ) ≠ 0 := by
      have : ((b.num.natAbs : ℚ)) ≠ 0 := by
        exact_mod_cast Int.natAbs_ne_zero.mpr hb.ne
      push_cast
      exact mul_ne_zero had this
    rw [qdiv, if_pos hb, Rat.mkRat_eq_div, div_eq_div_iff hdq
      (by exact fun hc => hbq (by simpa using hc))]
    have hcast : ((a.den * b.num.natAbs : ℕ) : ℚ) =
        (a.den : ℚ) * (-(b.num : ℚ)) := by
      push_cast [hd]
      ring_nf
      rw [Int.cast_natAbs]
      simp [abs_of_neg hb]
    rw [hcast]
    push_cast
    linear_combination (-(a.num : ℚ)) * hbmul + (b.num : ℚ) * hamul
  · have hbz : b = 0 := by rwa [Rat.num_eq_zero] at hb
    rw [qdiv, if_neg (by omega), hbz]
    simp [Rat.mkRat_eq_div]
  · have hd : ((b.num.natAbs : ℕ) : ℤ) = b.num := Int.natAbs_of_nonneg hb.le
    have hbq : b ≠ 0 := fun hc => by
      rw [hc] at hb
      exact absurd hb (by norm_num)
    have hdq : ((a.den * b.num.natAbs : ℕ) : ℚ) ≠ 0 := by
      have : ((b.num.natAbs : ℚ)) ≠ 0 := by
        exact_mod_cast Int.natAbs_ne_zero.mpr hb.ne'
      push_cast
      exact mul_ne_zero had this
    rw [qdiv, if_neg (by omega), Rat.mkRat_eq_div, div_eq_div_iff hdq
      (by exact fun hc => hbq (by simpa using hc))]
    have hcast : ((a.den * b.num.natAbs : ℕ) : ℚ) =
        (a.den : ℚ) * (b.num : ℚ) := by
      push_cast
      rw [Int.cast_natAbs]
      simp [abs_of_pos hb]
    rw [hcast]
    push_cast
    linear_combination (a.num : ℚ) * hbmul - (b.num : ℚ) * hamul

theorem foldl_qadd_eq (l : List ℚ) (a : ℚ) : l.foldl qadd a = a + l.sum := by
  induction l generalizing a with
  | nil => simp
  | cons x xs ih => simp [qadd_eq, ih, add_assoc]

/-- C8: the parser's sentiment derivation.  With at least one extracted
pair, the score is the floor of the mean of the pairs' sentiment outlooks;
with none, the summary's lexical cues give 75 / 25 / 50; and the category
is `bullish` exactly for scores `≥ 70`, `bearish` exactly for scores
`≤ 30`, and `neutral` exactly in between (hence 70 → bullish,
69 → neutral, 30 → bearish, 31 → neutral). -/
theorem deriveSentiment_spec (pairs : List CurrencyPairRanking)
    (summary : List Char) :
    (pairs ≠ [] →
      (deriveSentiment pairs summary).score =
        ((⌊((pairs.map (fun p => p.sentimentOutlook)).sum) /
          (pairs.length : ℚ)⌋ : ℤ) : ℚ)) ∧
    (pairs = [] →
      (deriveSentiment pairs summary).score =
        (if bullishWords.any (fun w => isSubstring w.data (pyLower summary))
         then 75
         else if bearishWords.any
            (fun w => isSubstring w.data (pyLower summary)) then 25
         else 50)) ∧
    ((deriveSentiment pairs summary).overall = "bullish" ↔
      70 ≤ (deriveSentiment pairs summary).score) ∧
    ((deriveSentiment pairs summary).overall = "bearish" ↔
      (deriveSentiment pairs summary).score ≤ 30) ∧
    ((deriveSentiment pairs summary).overall = "neutral" ↔
      (30 < (deriveSentiment pairs summary).score ∧
       (deriveSentiment pairs summary).score < 70)) := by
  by_cases hp : pairs = []
  · subst hp
    have hval : deriveSentiment [] summary =
        (if summary ≠ [] then
          (if bullishWords.any (fun w => isSubstring w.data (pyLower summary))
           then (⟨"bullish", 75⟩ : SentimentInfo)
           else if bearishWords.any
              (fun w => isSubstring w.data (pyLower summary))
           then ⟨"bearish", 25⟩ else ⟨"neutral", 50⟩)
         else ⟨"neutral", 50⟩) := by
      rw [deriveSentiment, if_neg (fun hc => hc rfl)]
    by_cases hsum : summary = []
    · rw [hsum] at hval ⊢
      rw [hval, if_neg (fun hc => hc rfl)]
      refine ⟨fun hc => absurd rfl hc, fun _ => by decide, by decide,
        by decide, by decide⟩
    · rw [hval, if_pos hsum]
      by_cases hbull : bullishWords.any
          (fun w => isSubstring w.data (pyLower summary)) = true
      · rw [if_pos hbull]
        refine ⟨fun hc => absurd rfl hc, fun _ => ?_, by decide, by decide,
          by decide⟩
        rw [if_pos hbull]
      · rw [if_neg hbull]
        by_cases hbear : bearishWords.any
            (fun w => isSubstring w.data (pyLower summary)) = true
        · rw [if_pos hbear]
          refine ⟨fun hc => absurd rfl hc, fun _ => ?_, by decide, by decide,
            by decide⟩
          rw [if_neg hbull, if_pos hbear]
        · rw [if_neg hbear]
          refine ⟨fun hc => absurd rfl hc, fun _ => ?_, by decide, by decide,
            by decide⟩
          rw [if_neg hbull, if_neg hbear]
  · obtain ⟨sc, hsc⟩ : ∃ sc, mkRat (qfloorz (qdiv ((pairs.map
        (fun p => p.sentimentOutlook)).foldl qadd 0)
        (mkRat pairs.length 1))) 1 = sc := ⟨_, rfl⟩
    have hval : deriveSentiment pairs summary =
        (if (70 : ℚ) ≤ sc then ⟨"bullish", sc⟩
         else if sc ≤ 30 then ⟨"bearish", sc⟩
         else (⟨"neutral", sc⟩ : SentimentInfo)) := by
      simp only [deriveSentiment]
      rw [if_pos hp, hsc]
    have hscval : sc =
        ((⌊((pairs.map (fun p => p.sentimentOutlook)).sum) /
          (pairs.length : ℚ)⌋ : ℤ) : ℚ) := by
      rw [← hsc, mkRat_one_eq, qfloorz_eq, qdiv_eq, foldl_qadd_eq, zero_add,
        mkRat_one_eq]
      norm_cast
    have hsc_score : (deriveSentiment pairs summary).score = sc := by
      rw [hval]
      by_cases h70 : (70 : ℚ) ≤ sc
      · rw [if_pos h70]
      · rw [if_neg h70]
        by_cases h30 : sc ≤ (30 : ℚ)
        · rw [if_pos h30]
        · rw [if_neg h30]
    refine ⟨fun _ => by rw [hsc_score, hscval], fun hc => absurd hc hp,
      ?_, ?_, ?_⟩ <;> rw [hsc_score] <;>
      by_cases h70 : (70 : ℚ) ≤ sc
    · rw [hval, if_pos h70]
      exact ⟨fun _ => h70, fun _ => rfl⟩
    · rw [hval, if_neg h70]
      by_cases h30 : sc ≤ (30 : ℚ)
      · rw [if_pos h30]
        exact ⟨fun hx => by simp at hx, fun hx => absurd hx h70⟩
      · rw [if_neg h30]
        exact ⟨fun hx => by simp at hx, fun hx => absurd hx h70⟩
    · rw [hval, if_pos h70]
      exact ⟨fun hx => by simp at hx,
        fun hx => absurd h70 (by linarith)⟩
    · rw [hval, if_neg h70]
      by_cases h30 : sc ≤ (30 : ℚ)
      · rw [if_pos h30]
        exact ⟨fun _ => h30, fun _ => rfl⟩
      · rw [if_neg h30]
        exact ⟨fun hx => by simp at hx, fun hx => absurd hx h30⟩
    · rw [hval, if_pos h70]
      exact ⟨fun hx => by simp at hx,
        fun hx => absurd h70 (by linarith [hx.2])⟩
    · rw [hval, if_neg h70]
      by_cases h30 : sc ≤ (30 : ℚ)
      · rw [if_pos h30]
        exact ⟨fun hx => by simp at hx,
          fun hx => absurd h30 (by linarith [hx.1])⟩
      · rw [if_neg h30]
        exact ⟨fun _ => ⟨by linarith [not_le.mp h30], not_le.mp h70⟩,
          fun _ => rfl⟩

/-! ### orchestrator lemmas -/

theorem parentCore_count (cfg : SummarizerConfig) (llm : ChainModel)
    (now : ℚ) (articles : List Article) (query : String) :
    (parentCore cfg llm now articles query).2 = 1 := by
  rw [parentCore]
  cases llm query (formatArticlesForPrompt cfg.maxSummaryArticles
    cfg.maxArticleContentChars (preprocessArticles articles)) <;> rfl

theorem parentGenerate_no_cache (cfg : SummarizerConfig) (llm : ChainModel)
    (st : CacheManager SummaryResult) (now : ℚ) (articles : List Article)
    (query : String) (hne : articles ≠ []) :
    parentGenerateSummary cfg llm st now articles query false =
      ((parentCore cfg llm now articles query).1, st,
       (parentCore cfg llm now articles query).2) := by
  rw [parentGenerateSummary, if_neg hne]
  simp only [Bool.false_eq_true, if_false]

theorem parentGenerate_no_cache_error (cfg : SummarizerConfig)
    (llm : ChainModel) (st : CacheManager SummaryResult) (now : ℚ)
    (articles : List Article) (query : String) (errmsg : String)
    (hne : articles ≠ [])
    (herr : llm query (formatArticlesForPrompt cfg.maxSummaryArticles
      cfg.maxArticleContentChars (preprocessArticles articles)) =
      .error errmsg) :
    parentGenerateSummary cfg llm st now articles query false =
      (.error ("Error in LangChain execution: " ++ errmsg), st, 1) := by
  rw [parentGenerate_no_cache cfg llm st now articles query hne, parentCore,
    herr]

theorem chunkFold_spec (cfg : SummarizerConfig) (llm : ChainModel) (now : ℚ)
    (query : String) (total : Nat) (ps : List (Nat × List Article))
    (hps : ∀ p ∈ ps, p.2 ≠ []) :
    ∀ (rs0 : List SummaryResult) (er0 : Nat)
      (st0 : CacheManager SummaryResult) (cn0 : Nat),
      ps.foldl (chunkStep cfg llm now query total) (rs0, er0, st0, cn0) =
        (rs0 ++ chunkSuccesses cfg llm now query total ps,
         er0 + ps.countP (fun p =>
           !(chunkOutcome cfg llm now query total p).isOk),
         st0, cn0 + ps.length) := by
  induction ps with
  | nil => intro rs0 er0 st0 cn0; simp [chunkSuccesses]
  | cons p ps ih =>
    intro rs0 er0 st0 cn0
    have hpne : p.2 ≠ [] := hps p (by simp)
    have hrest : ∀ q ∈ ps, q.2 ≠ [] := fun q hq => hps q (by simp [hq])
    have hstep : chunkStep cfg llm now query total (rs0, er0, st0, cn0) p =
        (match chunkOutcome cfg llm now query total p with
         | .ok r =>
             (rs0 ++ [{ r with chunk_index := some p.1, chunk_count := some total }],
               er0, st0, cn0 + 1)
         | .error _ => (rs0, er0 + 1, st0, cn0 + 1)) := by
      rw [chunkStep]
      rw [parentGenerate_no_cache cfg llm st0 now p.2
        (chunkQuery query total p.1) hpne]
      rw [show (parentCore cfg llm now p.2 (chunkQuery query total p.1)).2 =
        1 from parentCore_count _ _ _ _ _]
      cases hoc : (parentCore cfg llm now p.2
          (chunkQuery query total p.1)).1 with
      | ok r => simp [chunkOutcome, hoc]
      | error e => simp [chunkOutcome, hoc]
    rw [List.foldl_cons, hstep]
    cases hoc : chunkOutcome cfg llm now query total p with
    | ok r =>
      rw [ih hrest]
      simp [chunkSuccesses, hoc, List.countP_cons, Except.isOk, Except.toBool]
      omega
    | error e =>
      rw [ih hrest]
      simp [chunkSuccesses, hoc, List.countP_cons, Except.isOk, Except.toBool]
      omega

theorem chunksOfAux_mem_ne_nil {α : Type} {c : Nat} (hc : 0 < c) :
    ∀ (fuel : Nat) (l : List α) (ch : List α),
      ch ∈ chunksOfAux fuel c l → ch ≠ [] := by
  intro fuel
  induction fuel with
  | zero => intro l ch h; simp [chunksOfAux] at h
  | succ fuel ih =>
    intro l ch h
    cases l with
    | nil => simp [chunksOfAux] at h
    | cons x xs =>
      have hexp : chunksOfAux (fuel + 1) c (x :: xs) =
          (x :: xs).take c :: chunksOfAux fuel c ((x :: xs).drop c) := rfl
      rw [hexp] at h
      rcases List.mem_cons.mp h with h1 | h1
      · subst h1
        cases c with
        | zero => omega
        | succ c => simp
      · exact ih _ _ h1

theorem chunksOf_mem_ne_nil {α : Type} {c : Nat} (hc : 0 < c)
    {l : List α} {ch : List α} (h : ch ∈ chunksOf c l) : ch ≠ [] :=
  chunksOfAux_mem_ne_nil hc _ l ch h

theorem length_chunkSuccesses (cfg : SummarizerConfig) (llm : ChainModel)
    (now : ℚ) (query : String) (total : Nat)
    (ps : List (Nat × List Article)) :
    (chunkSuccesses cfg llm now query total ps).length =
      ps.countP (fun p => (chunkOutcome cfg llm now query total p).isOk) := by
  induction ps with
  | nil => rfl
  | cons p ps ih =>
    have hcons : chunkSuccesses cfg llm now query total (p :: ps) =
        (match chunkOutcome cfg llm now query total p with
         | .ok r =>
             [{ r with chunk_index := some p.1, chunk_count := some total }]
         | .error _ => []) ++ chunkSuccesses cfg llm now query total ps := by
      rw [chunkSuccesses, List.filterMap_cons]
      cases chunkOutcome cfg llm now query total p <;> rfl
    rw [hcons]
    simp only [List.length_append, List.countP_cons, ih]
    cases hoc : chunkOutcome cfg llm now query total p with
    | ok r => simp [Except.isOk, Except.toBool, Nat.add_comm]
    | error e => simp [Except.isOk, Except.toBool]

theorem chunkSuccesses_chunk_count (cfg : SummarizerConfig)
    (llm : ChainModel) (now : ℚ) (query : String) (total : Nat)
    (ps : List (Nat × List Article)) :
    ∀ r ∈ chunkSuccesses cfg llm now query total ps,
      r.chunk_count = some total := by
  intro r hr
  obtain ⟨p, hp, he⟩ := List.mem_filterMap.mp hr
  revert he
  cases chunkOutcome cfg llm now query total p with
  | ok r' =>
    intro he
    cases he
    rfl
  | error e => intro he; cases he

theorem merge_processingDetails (first : SummaryResult)
    (rest : List SummaryResult) (query : String) (now : ℚ) :
    (mergeChunkResults (first :: rest) query now).processingDetails =
      some ⟨(first :: rest).length,
        first.chunk_count.getD (first :: rest).length,
        (first :: rest).foldl (fun acc r => acc + r.articleCount) 0,
        (first.chunk_count.getD (first :: rest).length : ℤ) -
          (first :: rest).length⟩ := rfl

/-- C8 witness: two pairs with outlooks 80 and 61 (mean 70.5, floor 70). -/
theorem deriveSentiment_spec_witness :
    ([⟨"EUR/USD", 5, 10, 50, 80, "r1", none⟩,
      ⟨"USD/JPY", 4, 10, 50, 61, "r2", none⟩] : List CurrencyPairRanking) ≠
        [] ∧
    (deriveSentiment
      [⟨"EUR/USD", 5, 10, 50, 80, "r1", none⟩,
       ⟨"USD/JPY", 4, 10, 50, 61, "r2", none⟩] []).score =
      ((⌊((([⟨"EUR/USD", 5, 10, 50, 80, "r1", none⟩,
            ⟨"USD/JPY", 4, 10, 50, 61, "r2", none⟩] :
            List CurrencyPairRanking).map
            (fun p => p.sentimentOutlook)).sum) /
        (([⟨"EUR/USD", 5, 10, 50, 80, "r1", none⟩,
           ⟨"USD/JPY", 4, 10, 50, 61, "r2", none⟩] :
           List CurrencyPairRanking).length : ℚ)⌋ : ℤ) : ℚ) :=
  ⟨by decide,
   (deriveSentiment_spec
     [⟨"EUR/USD", 5, 10, 50, 80, "r1", none⟩,
      ⟨"USD/JPY", 4, 10, 50, 61, "r2", none⟩] []).1 (by decide)⟩

/-- C7 counterexample: on an empty article list the enhanced summarizer
returns the processing-error result of `_empty_summary_result` — impact
level `"MEDIUM"`, non-empty `keyPoints` and the "Unable to generate"
summary — not the LOW-impact "No news articles available" canned result
of the parent class. -/
theorem enhanced_empty_not_low :
    (enhancedGenerateSummary defaultConfig (fun _ _ => .ok "")
      (CacheManager.init 100 1800) 0 [] "latest forex news" true).1.impactLevel
        = "MEDIUM" ∧
    (enhancedGenerateSummary defaultConfig (fun _ _ => .ok "")
      (CacheManager.init 100 1800) 0 [] "latest forex news" true).1.impactLevel
        ≠ "LOW" ∧
    (enhancedGenerateSummary defaultConfig (fun _ _ => .ok "")
      (CacheManager.init 100 1800) 0 [] "latest forex news" true).1.keyPoints
        ≠ [] ∧
    (enhancedGenerateSummary defaultConfig (fun _ _ => .ok "")
      (CacheManager.init 100 1800) 0 [] "latest forex news" true).1.summary
        ≠ "No news articles available to summarize." := by
  refine ⟨rfl, ?_, ?_, ?_⟩ <;> decide

/-- C7 (amended): on an empty article list the enhanced summarizer
returns, without any LLM invocation and with the cache state untouched,
the canned `_empty_summary_result`: summary "Unable to generate market
analysis due to processing error.", keyPoints ["Error processing
financial news"], empty currency-pair rankings and guidelines, sentiment
(neutral, 50) and impact level MEDIUM. -/
theorem enhanced_empty_articles (cfg : SummarizerConfig) (llm : ChainModel)
    (st : CacheManager SummaryResult) (now : ℚ) (query : String)
    (use_cache : Bool) :
    enhancedGenerateSummary cfg llm st now [] query use_cache =
      (emptySummaryResult now, st, 0) ∧
    (emptySummaryResult now).summary =
      "Unable to generate market analysis due to processing error." ∧
    (emptySummaryResult now).keyPoints = ["Error processing financial news"] ∧
    (emptySummaryResult now).currencyPairRankings = [] ∧
    (emptySummaryResult now).tradeManagementGuidelines = [] ∧
    (emptySummaryResult now).sentiment = ⟨"neutral", 50⟩ ∧
    (emptySummaryResult now).impactLevel = "MEDIUM" :=
  ⟨rfl, rfl, rfl, rfl, rfl, rfl, rfl⟩

/-- C2 (amended): on the single-pass path (non-empty batch of at most
`max_chunk_size` articles, cache miss) a failing LLM call does not
propagate to the caller: the enhanced summarizer swallows the parent's
error and returns the synthesized `_empty_summary_result`, while the
parent alone would report the annotated LLM error to its caller. -/
theorem enhanced_singlepass_error (cfg : SummarizerConfig)
    (llm : ChainModel) (st : CacheManager SummaryResult) (now : ℚ)
    (articles : List Article) (query errmsg : String) (use_cache : Bool)
    (hne : articles ≠ []) (hlen : articles.length ≤ cfg.maxChunkSize)
    (herr : llm query (formatArticlesForPrompt cfg.maxSummaryArticles
      cfg.maxArticleContentChars (preprocessArticles articles)) =
      .error errmsg)
    (hmiss : use_cache = true →
      (st.get now (getCacheKey articles query)).1 = none) :
    (enhancedGenerateSummary cfg llm st now articles query use_cache).1 =
      emptySummaryResult now ∧
    ∀ st' : CacheManager SummaryResult,
      (parentGenerateSummary cfg llm st' now articles query false).1 =
        .error ("Error in LangChain execution: " ++ errmsg) := by
  constructor
  · cases use_cache with
    | false =>
      rw [enhancedGenerateSummary, if_neg hne]
      simp only [Bool.false_eq_true, if_false, if_pos hlen,
        parentGenerate_no_cache_error cfg llm st now articles query errmsg
          hne herr]
    | true =>
      have hm := hmiss rfl
      rcases hget : st.get now (getCacheKey articles query) with ⟨o, st1⟩
      rw [hget] at hm
      cases hm
      rw [enhancedGenerateSummary, if_neg hne]
      simp only [if_true, hget, if_pos hlen,
        parentGenerate_no_cache_error cfg llm st1 now articles query errmsg
          hne herr]
  · intro st'
    rw [parentGenerate_no_cache_error cfg llm st' now articles query errmsg
      hne herr]

/-- C2 witness: a concrete one-article cache-disabled run with an LLM
that fails with "boom". -/
theorem enhanced_singlepass_error_witness :
    ([⟨"a1", 1, ⟨"2025-01-01", "t", "s", "c"⟩⟩] : List Article) ≠ [] ∧
    (enhancedGenerateSummary defaultConfig (fun _ _ => .error "boom")
      (CacheManager.init 100 1800) 0
      [⟨"a1", 1, ⟨"2025-01-01", "t", "s", "c"⟩⟩] "q" false).1 =
      emptySummaryResult 0 :=
  ⟨by decide,
   (enhanced_singlepass_error defaultConfig (fun _ _ => .error "boom")
     (CacheManager.init 100 1800) 0
     [⟨"a1", 1, ⟨"2025-01-01", "t", "s", "c"⟩⟩] "q" "boom" false
     (by decide) (by decide) rfl (fun h => nomatch h)).1⟩

/-- C2 counterexample: with the same failing LLM, the parent reports the
error while the enhanced orchestrator returns a synthesized summary
object in its place. -/
theorem enhanced_singlepass_error_cex :
    (parentGenerateSummary defaultConfig (fun _ _ => .error "boom")
      (CacheManager.init 100 1800) 0
      [⟨"a1", 1, ⟨"2025-01-01", "t", "s", "c"⟩⟩] "q" false).1 =
      .error "Error in LangChain execution: boom" ∧
    (enhancedGenerateSummary defaultConfig (fun _ _ => .error "boom")
      (CacheManager.init 100 1800) 0
      [⟨"a1", 1, ⟨"2025-01-01", "t", "s", "c"⟩⟩] "q" false).1 =
      emptySummaryResult 0 := by
  refine ⟨rfl, ?_⟩
  decide

/-- C3 (code bug): two successive single-pass calls with identical
articles, query and `use_cache = true` on a fresh cache each perform one
LLM invocation, and the cache is still empty after the first call: the
single-pass path stores nothing (the parent is invoked with
`use_cache=False` and the enhanced class never calls `cache.set` there),
so the second call is not served from the cache and its LLM call count
is 1, not 0. -/
theorem enhanced_singlepass_cache_never_set :
    c3First.2.2 = 1 ∧ c3First.2.1.cache = [] ∧
    c3First.2.1.access_times = [] ∧ c3Second.2.2 = 1 := by
  refine ⟨rfl, ?_, ?_, rfl⟩ <;> decide

theorem countP_add_countP_not {α : Type} (l : List α) (p : α → Bool) :
    l.countP p + l.countP (fun a => !(p a)) = l.length := by
  have h := List.length_eq_countP_add_countP (l := l) p
  rw [h]
  congr 1
  apply List.countP_congr
  intro a _
  cases p a <;> simp

theorem snd_mem_of_mem_enumFrom {α : Type} :
    ∀ (l : List α) (n : Nat) (p : Nat × α), p ∈ l.enumFrom n → p.2 ∈ l := by
  intro l
  induction l with
  | nil => intro n p h; simp [List.enumFrom] at h
  | cons x xs ih =>
    intro n p h
    have hexp : (x :: xs).enumFrom n = (n, x) :: xs.enumFrom (n + 1) := rfl
    rw [hexp] at h
    rcases List.mem_cons.mp h with h1 | h1
    · subst h1; simp
    · exact List.mem_cons_of_mem _ (ih _ _ h1)

/-- C6: when the batch exceeds the chunk size and at least one chunk
succeeds, the coordinator continues past failing chunks: the result is
the merge of exactly the successful chunk results (in chunk order), and
its processingDetails records chunksProcessed = number of successful
chunks, totalChunks = number of chunks, and chunkErrorCount = totalChunks
minus chunksProcessed = number of failing chunks. -/
theorem chunked_partial_failure (cfg : SummarizerConfig) (llm : ChainModel)
    (st : CacheManager SummaryResult) (now : ℚ) (articles : List Article)
    (query : String) (hpos : 0 < cfg.maxChunkSize)
    (hbig : cfg.maxChunkSize < articles.length)
    (hsucc : enhChunkSuccesses cfg llm now query articles ≠ []) :
    (enhancedGenerateSummary cfg llm st now articles query false).1 =
      mergeChunkResults (enhChunkSuccesses cfg llm now query articles)
        query now ∧
    (∃ ta : Nat,
      (enhancedGenerateSummary cfg llm st now articles query
          false).1.processingDetails =
        some ⟨(enhChunkSuccesses cfg llm now query articles).length,
              (enhChunks cfg articles).length, ta,
              ((enhChunks cfg articles).length : ℤ) -
                (enhChunkSuccesses cfg llm now query articles).length⟩) ∧
    (enhChunkSuccesses cfg llm now query articles).length +
        enhFailedCount cfg llm now query articles =
      (enhChunks cfg articles).length ∧
    ((enhChunks cfg articles).length : ℤ) -
        (enhChunkSuccesses cfg llm now query articles).length =
      enhFailedCount cfg llm now query articles := by
  have hne : articles ≠ [] := by
    intro h
    subst h
    simp at hbig
  have hps : ∀ p ∈ (enhChunks cfg articles).enum, p.2 ≠ [] := by
    intro p hp
    have hmem : p.2 ∈ enhChunks cfg articles :=
      snd_mem_of_mem_enumFrom _ _ _ hp
    exact chunksOf_mem_ne_nil hpos hmem
  have hsucc' : chunkSuccesses cfg llm now query
      (chunksOf cfg.maxChunkSize (sortArticlesForChunking articles)).length
      (chunksOf cfg.maxChunkSize (sortArticlesForChunking articles)).enum ≠
        [] := hsucc
  have hmain : enhancedGenerateSummary cfg llm st now articles query false =
      (mergeChunkResults (enhChunkSuccesses cfg llm now query articles)
        query now, st,
       (chunksOf cfg.maxChunkSize
         (sortArticlesForChunking articles)).enum.length) := by
    rw [enhancedGenerateSummary, if_neg hne]
    simp only [Bool.false_eq_true, if_false, if_neg (not_le.mpr hbig)]
    rw [chunkFold_spec cfg llm now query
      (chunksOf cfg.maxChunkSize (sortArticlesForChunking articles)).length
      (chunksOf cfg.maxChunkSize (sortArticlesForChunking articles)).enum
      hps [] 0 st 0]
    simp only [List.nil_append, Nat.zero_add]
    rw [if_pos hsucc']
    rfl
  have h1 : (enhancedGenerateSummary cfg llm st now articles query false).1 =
      mergeChunkResults (enhChunkSuccesses cfg llm now query articles)
        query now := by
    rw [hmain]
  have hcount : (enhChunkSuccesses cfg llm now query articles).length =
      (enhChunks cfg articles).enum.countP (fun p =>
        (chunkOutcome cfg llm now query (enhChunks cfg articles).length
          p).isOk) :=
    length_chunkSuccesses _ _ _ _ _ _
  have htot : (enhChunkSuccesses cfg llm now query articles).length +
      enhFailedCount cfg llm now query articles =
      (enhChunks cfg articles).length := by
    rw [hcount, enhFailedCount, countP_add_countP_not]
    exact List.enum_length
  refine ⟨h1, ?_, htot, ?_⟩
  · rcases hexp : enhChunkSuccesses cfg llm now query articles with
      _ | ⟨first, rest⟩
    · exact absurd hexp hsucc
    · have hmem : first ∈ enhChunkSuccesses cfg llm now query articles := by
        rw [hexp]
        exact List.mem_cons_self _ _
      have hfc : first.chunk_count = some (enhChunks cfg articles).length :=
        chunkSuccesses_chunk_count cfg llm now query
          (enhChunks cfg articles).length (enhChunks cfg articles).enum
          first hmem
      refine ⟨(enhChunkSuccesses cfg llm now query articles).foldl
        (fun acc r => acc + r.articleCount) 0, ?_⟩
      rw [h1, hexp, merge_processingDetails first rest query now, hfc,
        Option.getD_some]
  · omega

/-- C6 witness: with two single-article chunks of which the second
fails, the result is the merge of the surviving chunk and the counts add
up. -/
theorem chunked_partial_failure_witness :
    (0 : Nat) < c6Cfg.maxChunkSize ∧
    c6Cfg.maxChunkSize < c6Articles.length ∧
    (enhancedGenerateSummary c6Cfg c6Llm (CacheManager.init 100 1800) 0
      c6Articles "q" false).1 =
      mergeChunkResults (enhChunkSuccesses c6Cfg c6Llm 0 "q" c6Articles)
        "q" 0 ∧
    (enhChunkSuccesses c6Cfg c6Llm 0 "q" c6Articles).length +
        enhFailedCount c6Cfg c6Llm 0 "q" c6Articles =
      (enhChunks c6Cfg c6Articles).length :=
  ⟨by decide, by decide,
   (chunked_partial_failure c6Cfg c6Llm (CacheManager.init 100 1800) 0
     c6Articles "q" (by decide) (by decide) (by decide)).1,
   (chunked_partial_failure c6Cfg c6Llm (CacheManager.init 100 1800) 0
     c6Articles "q" (by decide) (by decide) (by decide)).2.2.1⟩

end NewsRag
